import Mathlib

/-!
Shallow embedding of the eb_bars bar-chart rendering library
(src/lib.rs, src/svg.rs, src/svg/tag.rs) and verification of the
specification claims about it.

Numbers: the Rust code computes in f64; the embedding uses the rationals.
The two sentinel constants f64::MIN and f64::MAX used to seed the
statistics fold are modelled by huge rationals of the same magnitude.
The only genuinely non-rational operation, the square root of the canvas
area used for the base font size and line width, is modelled by the
integer square root, which agrees with the f64 value whenever the area
is a perfect square (all concrete inputs below use such canvases).
Rust f64 division never panics (it yields infinities or NaN); rational
division by zero yields 0.  No claim below depends on a value computed
by a division by zero: wherever a division is meaningful the theorems
carry the corresponding nondegeneracy hypotheses.

Rust panics (assert failures, step_by(0), remainder by zero, indexing)
are modelled by Option: a function that can panic returns none exactly
on the inputs where the Rust code panics.
-/

namespace EbBars

section
/- Core marks the rational field operations irreducible, which blocks
evaluation of concrete instances by decide; restore the default
transparency for this development. -/
attribute [local semireducible] Rat.mul Rat.add Rat.sub Rat.inv

/-- Sentinel seed for the running maximum, standing for f64::MIN (the power
is computed in the naturals so that kernel evaluation is fast). -/
def F64_MIN : ℚ := -((2 ^ 1024 : ℕ) : ℚ)

/-- Sentinel seed for the running minimum, standing for f64::MAX. -/
def F64_MAX : ℚ := ((2 ^ 1024 : ℕ) : ℚ)

/-- Fuel-based Newton iteration for the integer square root (the fuel makes
the recursion structural so that concrete instances evaluate). -/
def sqrtIter : ℕ → ℕ → ℕ → ℕ
  | 0, _, guess => guess
  | fuel + 1, n, guess =>
    let next := (guess + n / guess) / 2
    if next < guess then sqrtIter fuel n next else guess

/-- Rational stand-in for the f64 square root of a natural number; exact on
perfect squares (all concrete canvases below have perfect square area). -/
def fsqrt (n : ℕ) : ℚ := if n ≤ 1 then (n : ℚ) else (sqrtIter n n (n / 2) : ℚ)

/-- One SVG primitive together with its numeric payload, mirroring the three
element kinds of src/svg/tag.rs (text has three orientations). -/
inductive Node where
  | rect (x y w h opacity : ℚ) (fill : String)
  | line (x1 x2 y1 y2 : ℚ) (stroke : String) (width : ℚ)
  | text (x y : ℚ) (fill : String) (fontSize : ℚ) (anchor : String) (content : String)
  | textTopDown (x y : ℚ) (fill : String) (fontSize : ℚ) (anchor : String) (content : String)
  | textBottomUp (x y : ℚ) (fill : String) (fontSize : ℚ) (anchor : String) (content : String)
  deriving DecidableEq

/-- Mirror of enum BinMarkerPosition in src/lib.rs. -/
inductive BinMarkerPosition where
  | Left
  | Middle
  | Right
  deriving DecidableEq

/-- Mirror of enum BarColors in src/lib.rs (colors are opaque strings). -/
inductive BarColors where
  | Category (arr : List String)
  | Indexed (arr : List (List String))
  | Threshold (clrMin clrLow clrHigh clrMax : String)
  | Uniform (color : String)
  deriving DecidableEq

/-- Mirror of struct PlotText in src/lib.rs.  Percentages are i16 in the
source, modelled as integers. -/
structure PlotText where
  left : Option String := none
  leftOffset : Option ℤ := none
  right : Option String := none
  rightOffset : Option ℤ := none
  top : Option String := none
  topOffset : Option ℤ := none
  bottom : Option String := none
  bottomOffset : Option ℤ := none
  deriving DecidableEq

/-- Mirror of struct PlotLegend in src/lib.rs. -/
structure PlotLegend where
  categories : Option (List String) := none
  position : Option (ℤ × ℤ) := none
  deriving DecidableEq

def DEFAULT_BAR_COLOR : String := "rgb(112, 153, 182)"
def DEFAULT_BASE_COLOR : String := "rgb(197, 197, 197)"
def DEFAULT_BIN_GAP : ℤ := 10
def DEFAULT_BAR_GAP : ℤ := 0
def DEFAULT_TICK_LENGTH : ℤ := 10
def DEFAULT_FONT_SIZE : ℤ := 100
def DEFAULT_TEXT_SIDE_OFFSET : ℤ := 35
def DEFAULT_LEGEND_POSITION : ℤ × ℤ := (90, 20)
def DEFAULT_SVG_SIZE : ℕ × ℕ := (1600, 1000)

/-- Mirror of struct BarPlot in src/lib.rs, the immutable plot description. -/
structure BarPlot where
  values : List (List ℚ) := []
  binMarkers : Option (List String) := none
  scaleRange : Option (ℤ × ℤ × ℕ) := none
  size : Option (ℕ × ℕ) := none
  plotWindowScale : Option (ℤ × ℤ × ℤ × ℤ) := none
  xAxisTickLength : Option ℤ := none
  yAxisTickLength : Option ℤ := none
  negativeBarsGoDown : Bool := false
  showWindowBorder : Bool := false
  showPlotBorder : Bool := false
  showHorizontalLines : Bool := false
  showVerticalLines : Bool := false
  backgroundColor : Option String := none
  lineColor : String := DEFAULT_BASE_COLOR
  textColor : String := DEFAULT_BASE_COLOR
  tickColor : String := DEFAULT_BASE_COLOR
  binGap : ℤ := DEFAULT_BIN_GAP
  barGap : ℤ := DEFAULT_BAR_GAP
  plotText : PlotText := {}
  fontSize : ℤ := DEFAULT_FONT_SIZE
  barColorVariant : BarColors := BarColors.Uniform DEFAULT_BAR_COLOR
  barColorsOverride : List (ℕ × ℕ × String) := []
  binMarkerPosition : BinMarkerPosition := BinMarkerPosition.Middle
  legend : PlotLegend := {}
  deriving DecidableEq

/-- Mirror of BarPlot::new. -/
def BarPlot.new : BarPlot := {}

/-- Mirror of BarPlot::add_values: rejects (the source asserts) a row whose
length differs from the first row. -/
def addValues (bp : BarPlot) (vs : List ℚ) : Option BarPlot :=
  if bp.values.isEmpty then some { bp with values := bp.values ++ [vs] }
  else if (bp.values.headD []).length = vs.length then
    some { bp with values := bp.values ++ [vs] }
  else none

/-- Mirror of BarPlot::add_bar_color_override: appends an override entry;
the source asserts that some values were added first. -/
def addBarColorOverride (bp : BarPlot) (category bar : ℕ) (color : String) :
    Option BarPlot :=
  if bp.values.isEmpty then none
  else some { bp with barColorsOverride := bp.barColorsOverride ++ [(category, bar, color)] }

/-- Running statistics of the single traversal in SvgGenerator::new. -/
structure Stats where
  max : ℚ
  min : ℚ
  sum : ℚ
  barCount : ℕ
  deriving DecidableEq

/-- One step of the statistics traversal: fold in one value. -/
def statsStep (st2 : Stats) (f : ℚ) : Stats :=
  { st2 with max := Max.max f st2.max, min := Min.min f st2.min, sum := st2.sum + f }

/-- The statistics pass of SvgGenerator::new: one traversal of all series
computing max, min, sum and the total bar count, seeded with the f64
sentinels exactly as the source. -/
def statsPass (values : List (List ℚ)) : Stats :=
  values.foldl
    (fun st arr => arr.foldl statsStep { st with barCount := st.barCount + arr.length })
    { max := F64_MIN, min := F64_MAX, sum := 0, barCount := 0 }

/-- Mirror of struct SvgGenerator in src/svg.rs.  The nodes vector is not a
field here: each generate method below returns the list of nodes it pushes,
and render concatenates them in the same order as the source. -/
structure SvgGenerator where
  min : ℚ
  max : ℚ
  mean : ℚ
  svgWindow : ℕ × ℕ
  plotWindow : ℚ × ℚ × ℚ × ℚ
  scaleRange : Option (ℤ × ℤ × ℕ)
  lineColor : String
  tickColor : String
  textColor : String
  binMargin : ℤ
  barMargin : ℤ
  fontSize : ℤ
  values : List (List ℚ)
  enumBarColors : BarColors
  barColorsOverride : List (ℕ × ℕ × String)
  deriving DecidableEq

/-- Mirror of SvgGenerator::new.  The mean is sum over bar count; for an
empty description the Rust code produces NaN, the model produces 0 (no claim
touches that case).  The bin gap and bar gap percentages of the plot are
stored under the margin field names used by the generator struct. -/
def SvgGenerator.new (bp : BarPlot) : SvgGenerator :=
  let svgWindow := bp.size.getD DEFAULT_SVG_SIZE
  let st := statsPass bp.values
  { min := st.min
    max := st.max
    mean := st.sum / (st.barCount : ℚ)
    svgWindow := svgWindow
    plotWindow := ((svgWindow.1 : ℚ), 0, (svgWindow.2 : ℚ), 0)
    scaleRange := none
    lineColor := bp.lineColor
    tickColor := bp.tickColor
    textColor := bp.textColor
    binMargin := bp.binGap
    barMargin := bp.barGap
    fontSize := bp.fontSize
    values := bp.values
    enumBarColors := bp.barColorVariant
    barColorsOverride := bp.barColorsOverride }

def SvgGenerator.getSvgWidth (g : SvgGenerator) : ℚ := (g.svgWindow.1 : ℚ)

def SvgGenerator.getSvgHeight (g : SvgGenerator) : ℚ := (g.svgWindow.2 : ℚ)

/-- Mirror of SvgGenerator::get_svg_window. -/
def SvgGenerator.getSvgWindow (g : SvgGenerator) : ℚ × ℚ × ℚ × ℚ :=
  (0, g.getSvgWidth, 0, g.getSvgHeight)

/-- Mirror of SvgGenerator::get_plot_window: plotWindow is stored as
(xLength, xOffset, yLength, yOffset) and unpacked to corner coordinates. -/
def SvgGenerator.getPlotWindow (g : SvgGenerator) : ℚ × ℚ × ℚ × ℚ :=
  let (xLength, xOffset, yLength, yOffset) := g.plotWindow
  (xOffset, xOffset + xLength, yOffset, yLength + yOffset)

/-- Mirror of SvgGenerator::get_font_size. -/
def SvgGenerator.getFontSize (g : SvgGenerator) : ℚ :=
  fsqrt (g.svgWindow.1 * g.svgWindow.2) / 50 * ((g.fontSize : ℚ) / 100)

/-- Mirror of SvgGenerator::get_base_line_width. -/
def SvgGenerator.getBaseLineWidth (g : SvgGenerator) : ℚ :=
  fsqrt (g.svgWindow.1 * g.svgWindow.2) / 100

/-- The override match test of the scan loop in get_bar_color: an entry
matches when both its category index and its bar index agree. -/
def ovMatch (categoryIndex barIndex : ℕ) : ℕ × ℕ × String → Bool :=
  fun e => categoryIndex == e.1 && barIndex == e.2.1

/-- Mirror of SvgGenerator::get_bar_color: first matching override wins,
otherwise the bar color layout decides.  Out-of-range indexing into a
Category or Indexed layout panics in the source; it is excluded by the
dimension assertions of to_svg, and modelled by a default here. -/
def SvgGenerator.getBarColor (g : SvgGenerator) (categoryIndex barIndex : ℕ)
    (barValue : ℚ) : String :=
  match g.barColorsOverride.find? (ovMatch categoryIndex barIndex) with
  | some e => e.2.2
  | none =>
    match g.enumBarColors with
    | BarColors.Category arr => arr.getD categoryIndex DEFAULT_BAR_COLOR
    | BarColors.Indexed arr => (arr.getD categoryIndex []).getD barIndex DEFAULT_BAR_COLOR
    | BarColors.Threshold clrMin clrLow clrHigh clrMax =>
      if barValue = g.max then clrMax
      else if barValue = g.min then clrMin
      else if barValue ≥ g.mean then clrHigh
      else clrLow
    | BarColors.Uniform color => color

/-- Mirror of SvgGenerator::set_plot_window_size; none on the two assertion
failures (a size or offset percentage above 100). -/
def setPlotWindowSize (g : SvgGenerator) (xSize xOffset ySize yOffset : ℤ) :
    Option (ℚ × ℚ × ℚ × ℚ) :=
  if xSize ≤ 100 ∧ xOffset ≤ 100 ∧ ySize ≤ 100 ∧ yOffset ≤ 100 then
    let xLength := g.getSvgWidth * (xSize : ℚ) / 100
    let xOffsetPx := g.getSvgWidth * (1 - (xSize : ℚ) / 100) / 100 * (xOffset : ℚ)
    let yLength := g.getSvgHeight * (ySize : ℚ) / 100
    let yOffsetPx := g.getSvgHeight * (1 - (ySize : ℚ) / 100) / 100 * (yOffset : ℚ)
    some (xLength, xOffsetPx, yLength, yOffsetPx)
  else none

/-- The inclusive stepped range (min..=max).step_by(step) of the scale loop:
min, min+step, ... while not exceeding max. -/
def stepRange (lo hi : ℤ) (step : ℕ) : List ℤ :=
  (List.range (if lo ≤ hi then (hi - lo).toNat / step + 1 else 0)).map
    (fun k => lo + ((k * step : ℕ) : ℤ))

/-- Mirror of SvgGenerator::generate_scale_range; none on the two room
assertions and on a zero step (Iterator::step_by panics on step 0).  For
each tick the source pushes the label text, then the optional horizontal
gridline, then the optional tick segment. -/
def generateScaleRange (g : SvgGenerator) (mn mx : ℤ) (step : ℕ)
    (axisOffset : ℤ) (showHorizontalLines : Bool) : Option (List Node) :=
  let (xLength, xOffset, yLength, yOffset) := g.plotWindow
  if xLength < g.getSvgWidth ∧ yLength < g.getSvgHeight ∧ step ≠ 0 then
    let lineWidth := g.getBaseLineWidth / 10
    let fontSize := g.getFontSize
    let x1 := xOffset / 100 * ((100 - axisOffset : ℤ) : ℚ)
    let x2 := xOffset
    let range : ℚ := ((mx - mn : ℤ) : ℚ)
    let verticalMove := yLength / range
    some <| (stepRange mn mx step).flatMap fun n =>
      let y : ℚ :=
        if mn < 0 then
          yOffset + yLength - ((n : ℚ) * verticalMove - (mn : ℚ) * yLength / range)
        else
          yOffset + yLength - (n : ℚ) * verticalMove
      [Node.text (x1 - fontSize / (7/2)) (y + fontSize / (7/2)) g.textColor fontSize
        "end" (toString n)]
      ++ (if showHorizontalLines then
            [Node.line x2 (xLength + xOffset) y y g.lineColor lineWidth] else [])
      ++ (if axisOffset ≠ 0 then [Node.line x1 x2 y y g.tickColor lineWidth] else [])
  else none

/-- Per-index body of the bin marker loop, carrying the running label index
exactly as the mark_index variable of the source. -/
def binMarkerLoop (g : SvgGenerator) (markers : List String) (axisOffset : ℤ)
    (nth : ℕ) (scaleUnit markerShift y y2 y3 : ℚ) (showVerticalLines : Bool) :
    ℕ → List ℕ → List Node
  | _, [] => []
  | markIndex, i :: rest =>
    let (_, xOffset, _, yOffset) := g.plotWindow
    let x := xOffset + scaleUnit * (i : ℚ) + markerShift
    let lineWidth := g.getBaseLineWidth / 10
    (if showVerticalLines then [Node.line x x yOffset y g.lineColor lineWidth] else [])
    ++ (if axisOffset ≠ 0 then [Node.line x x y y2 g.tickColor lineWidth] else [])
    ++ (if i % nth = 0 ∧ markIndex < markers.length then
          Node.text x y3 g.textColor g.getFontSize "middle" (markers.getD markIndex "")
            :: binMarkerLoop g markers axisOffset nth scaleUnit markerShift y y2 y3
              showVerticalLines (markIndex + 1) rest
        else
          binMarkerLoop g markers axisOffset nth scaleUnit markerShift y y2 y3
            showVerticalLines markIndex rest)

/-- Mirror of SvgGenerator::generate_bin_markers; none when the values list
is empty (values[0] panics), when the marker list is empty (remainder by
zero), and when the computed nth divisor is zero while the loop runs at
least once (i % nth_marker panics). -/
def generateBinMarkers (g : SvgGenerator) (markers : List String) (axisOffset : ℤ)
    (pos : BinMarkerPosition) (showVerticalLines : Bool) : Option (List Node) :=
  match g.values with
  | [] => none
  | v0 :: _ =>
    if markers.length = 0 then none
    else
      let n := v0.length
      let remainder := n % markers.length
      let nth := (n + remainder) / markers.length
      if n ≠ 0 ∧ nth = 0 then none
      else
        let (xLength, _, yLength, yOffset) := g.plotWindow
        let y := yLength + yOffset
        let y2 := y + (g.getSvgHeight - (yLength + yOffset)) / 100 * (axisOffset : ℚ)
        let y3 := y2 + g.getFontSize
        let scaleUnit := xLength / (n : ℚ)
        let markerShift : ℚ :=
          match pos with
          | BinMarkerPosition.Middle => scaleUnit / 2
          | BinMarkerPosition.Left => 0
          | BinMarkerPosition.Right => scaleUnit
        some (binMarkerLoop g markers axisOffset nth scaleUnit markerShift y y2 y3
          showVerticalLines 0 (List.range n))

/-- The lower scale bound used by generate_bars: the explicit scale minimum
when a range was set, the statistics minimum otherwise. -/
def barsYMin (g : SvgGenerator) : ℚ :=
  match g.scaleRange with
  | some (mn, _, _) => (mn : ℚ)
  | none => g.min

/-- The upper scale bound used by generate_bars. -/
def barsYMax (g : SvgGenerator) : ℚ :=
  match g.scaleRange with
  | some (_, mx, _) => (mx : ℚ)
  | none => g.max

/-- The value range of generate_bars. -/
def barsRange (g : SvgGenerator) : ℚ := barsYMax g - barsYMin g

/-- The top_offset of generate_bars: y_min scaled into pixels. -/
def barsTopOffset (g : SvgGenerator) : ℚ :=
  barsYMin g * g.plotWindow.2.2.1 / barsRange g

/-- The y_floor of generate_bars: the bottom edge of the plot window. -/
def barsYFloor (g : SvgGenerator) : ℚ :=
  g.plotWindow.2.2.1 + g.plotWindow.2.2.2

/-- The scale_unit of generate_bars: pixels per value unit. -/
def barsScaleUnit (g : SvgGenerator) : ℚ :=
  g.plotWindow.2.2.1 / barsRange g

/-- The bin_width of generate_bars. -/
def barsBinWidth (g : SvgGenerator) : ℚ :=
  g.plotWindow.1 / ((g.values.headD []).length : ℚ)

/-- The bin_margin of generate_bars. -/
def barsBinMargin (g : SvgGenerator) : ℚ :=
  barsBinWidth g * ((g.binMargin : ℚ) / 100)

/-- The bar_width of generate_bars. -/
def barsBarWidth (g : SvgGenerator) : ℚ :=
  (barsBinWidth g - barsBinMargin g) / (g.values.length : ℚ)

/-- The bar_margin of generate_bars. -/
def barsBarMargin (g : SvgGenerator) : ℚ :=
  (barsBinWidth g - barsBinMargin g) / (g.values.length : ℚ) * ((g.barMargin : ℚ) / 100)

/-- The rect emitted by generate_bars for one bar, with the loop-invariant
quantities of the source hoisted into the definitions above (the
computation is identical). -/
def barRect (g : SvgGenerator) (negativeBarsGoDown : Bool)
    (categoryIndex barIndex : ℕ) (bar : ℚ) : Node :=
  let color := g.getBarColor categoryIndex barIndex bar
  let leftShift := barsBarWidth g * (categoryIndex : ℚ)
  let xStart := g.plotWindow.2.1 + leftShift
  let x := xStart + barsBinWidth g * (barIndex : ℚ) + barsBinMargin g
    - barsBinMargin g / 2 + barsBarMargin g / 2
  let yh : ℚ × ℚ :=
    if negativeBarsGoDown ∧ g.min < 0 then
      if 0 ≤ bar then
        (barsYFloor g + barsTopOffset g - bar * barsScaleUnit g, bar * barsScaleUnit g)
      else
        (barsYFloor g + barsTopOffset g, |bar * barsScaleUnit g|)
    else
      (barsYFloor g - (bar * barsScaleUnit g - barsTopOffset g),
        bar * barsScaleUnit g - barsTopOffset g)
  Node.rect x yh.1 (barsBarWidth g - barsBarMargin g) yh.2 1 color

/-- Inner loop of generate_bars over the bars of one category. -/
def rowBars (g : SvgGenerator) (negativeBarsGoDown : Bool) (categoryIndex : ℕ) :
    ℕ → List ℚ → List Node
  | _, [] => []
  | barIndex, bar :: rest =>
    barRect g negativeBarsGoDown categoryIndex barIndex bar
      :: rowBars g negativeBarsGoDown categoryIndex (barIndex + 1) rest

/-- Outer loop of generate_bars over the categories. -/
def catBars (g : SvgGenerator) (negativeBarsGoDown : Bool) :
    ℕ → List (List ℚ) → List Node
  | _, [] => []
  | categoryIndex, row :: rest =>
    rowBars g negativeBarsGoDown categoryIndex 0 row
      ++ catBars g negativeBarsGoDown (categoryIndex + 1) rest

/-- Mirror of SvgGenerator::generate_bars. -/
def generateBars (g : SvgGenerator) (negativeBarsGoDown : Bool) : List Node :=
  catBars g negativeBarsGoDown 0 g.values

/-- The four text sides of SvgGenerator::generate_text. -/
inductive Side where
  | Left
  | Right
  | Top
  | Bottom
  deriving DecidableEq

/-- Mirror of SvgGenerator::generate_text; none on the room assertions. -/
def generateText (g : SvgGenerator) (txt : String) (side : Side) (offset : ℤ) :
    Option (List Node) :=
  let (xLength, xOffset, yLength, yOffset) := g.plotWindow
  let smallShift : ℚ := 11 / 10
  match side with
  | Side.Left =>
    if xLength < g.getSvgWidth then
      let x := xOffset / 100 * (offset : ℚ) + g.getFontSize / 2
      let y := yOffset + yLength / smallShift
      some [Node.textBottomUp x y g.textColor g.getFontSize "start" txt]
    else none
  | Side.Right =>
    if xLength < g.getSvgWidth then
      let shift := g.getSvgWidth - (xLength + xOffset)
      let x := xOffset + xLength + (shift - shift / 100 * (offset : ℚ))
      let y := yOffset + (yLength - yLength / smallShift)
      some [Node.textTopDown x y g.textColor g.getFontSize "start" txt]
    else none
  | Side.Top =>
    if yLength < g.getSvgHeight then
      let x := xOffset + (xLength - xLength / smallShift)
      let y := yOffset / 100 * (offset : ℚ) + g.getFontSize / 2
      some [Node.text x y g.textColor g.getFontSize "start" txt]
    else none
  | Side.Bottom =>
    if yLength < g.getSvgHeight then
      let x := xOffset + (xLength - xLength / smallShift)
      let shift := g.getSvgHeight - (yLength + yOffset)
      let y := g.getSvgHeight - shift / 100 * (offset : ℚ)
      some [Node.text x y g.textColor g.getFontSize "start" txt]
    else none

/-- Loop of SvgGenerator::generate_legend over title and color pairs,
advancing the y position by 1.2 font sizes per entry. -/
def legendLoop (g : SvgGenerator) (fontSize x : ℚ) :
    ℚ → List (String × String) → List Node
  | _, [] => []
  | y, (title, color) :: rest =>
    Node.rect (x - fontSize * (3/2)) (y - fontSize) fontSize fontSize 1 color
      :: Node.text x (y - fontSize * (3/20)) g.textColor fontSize "start" title
      :: legendLoop g fontSize x (y + fontSize * (6/5)) rest

/-- Mirror of SvgGenerator::generate_legend. -/
def generateLegend (g : SvgGenerator) (titles : List String) (px py : ℤ) : List Node :=
  let colors : List String :=
    match g.enumBarColors with
    | BarColors.Category colors => colors
    | _ => List.replicate titles.length DEFAULT_BAR_COLOR
  let fontSize := g.getFontSize
  let x := g.getSvgWidth / 100 * (px : ℚ)
  let y := g.getSvgHeight / 100 * (py : ℚ)
  legendLoop g fontSize x y (titles.zip colors)

/-- Mirror of SvgGenerator::generate_plot_border. -/
def generatePlotBorder (g : SvgGenerator) (color : String) : List Node :=
  let (x1, x2, y1, y2) := g.getPlotWindow
  let w := g.getBaseLineWidth / 10
  [Node.line x1 x1 y1 y2 color w, Node.line x1 x2 y1 y1 color w,
   Node.line x2 x2 y1 y2 color w, Node.line x1 x2 y2 y2 color w]

/-- Mirror of SvgGenerator::generate_svg_border. -/
def generateSvgBorder (g : SvgGenerator) (color : String) : List Node :=
  let (x1, x2, y1, y2) := g.getSvgWindow
  let w := g.getBaseLineWidth / 5
  [Node.line x1 x1 y1 y2 color w, Node.line x1 x2 y1 y1 color w,
   Node.line x2 x2 y1 y2 color w, Node.line x1 x2 y2 y2 color w]

/-- The generator as configured by render just before emission: statistics
computed, plot window applied.  None exactly when set_plot_window_size
panics. -/
def genWithWindow (bp : BarPlot) : Option SvgGenerator := do
  let g := SvgGenerator.new bp
  let pw ← match bp.plotWindowScale with
    | some (a, b, c, d) => setPlotWindowSize g a b c d
    | none => some g.plotWindow
  some { g with plotWindow := pw }

/-- Background stage of svg::render (runs before the plot window is set and
only reads the canvas size). -/
def bgStage (bp : BarPlot) : List Node :=
  let g0 := SvgGenerator.new bp
  match bp.backgroundColor with
  | some c => [Node.rect 0 0 g0.getSvgWidth g0.getSvgHeight 1 c]
  | none => []

/-- Bin marker stage of svg::render, including its non-empty assertion and
the default tick length. -/
def markerStage (bp : BarPlot) (g : SvgGenerator) : Option (List Node) :=
  match bp.binMarkers with
  | some ms =>
    if ms.isEmpty then none
    else
      generateBinMarkers g ms (bp.xAxisTickLength.getD DEFAULT_TICK_LENGTH)
        bp.binMarkerPosition bp.showVerticalLines
  | none => some []

/-- Scale range stage of svg::render. -/
def scaleStage (bp : BarPlot) (g : SvgGenerator) : Option (List Node) :=
  match bp.scaleRange with
  | some (mn, mx, st) =>
    generateScaleRange g mn mx st (bp.yAxisTickLength.getD DEFAULT_TICK_LENGTH)
      bp.showHorizontalLines
  | none => some []

/-- The generator after the scale range stage stored the range (the source
mutates the scale_range field inside generate_scale_range; later stages,
in particular generate_bars, read it). -/
def withScale (bp : BarPlot) (g : SvgGenerator) : SvgGenerator :=
  match bp.scaleRange with
  | some r => { g with scaleRange := some r }
  | none => g

/-- Side text stage of svg::render for one side. -/
def textStage (bp : BarPlot) (g : SvgGenerator) (side : Side) : Option (List Node) :=
  match side with
  | Side.Left =>
    match bp.plotText.left with
    | some t => generateText g t Side.Left (bp.plotText.leftOffset.getD DEFAULT_TEXT_SIDE_OFFSET)
    | none => some []
  | Side.Right =>
    match bp.plotText.right with
    | some t => generateText g t Side.Right (bp.plotText.rightOffset.getD DEFAULT_TEXT_SIDE_OFFSET)
    | none => some []
  | Side.Top =>
    match bp.plotText.top with
    | some t => generateText g t Side.Top (bp.plotText.topOffset.getD DEFAULT_TEXT_SIDE_OFFSET)
    | none => some []
  | Side.Bottom =>
    match bp.plotText.bottom with
    | some t => generateText g t Side.Bottom (bp.plotText.bottomOffset.getD DEFAULT_TEXT_SIDE_OFFSET)
    | none => some []

/-- Window border stage of svg::render. -/
def windowBorderStage (bp : BarPlot) (g : SvgGenerator) : List Node :=
  if bp.showWindowBorder then generateSvgBorder g bp.lineColor else []

/-- Legend stage of svg::render, with the default legend position. -/
def legendStage (bp : BarPlot) (g : SvgGenerator) : List Node :=
  match bp.legend.categories with
  | some cats =>
    let p := bp.legend.position.getD DEFAULT_LEGEND_POSITION
    generateLegend g cats p.1 p.2
  | none => []

/-- Plot border stage of svg::render. -/
def plotBorderStage (bp : BarPlot) (g : SvgGenerator) : List Node :=
  if bp.showPlotBorder then generatePlotBorder g bp.lineColor else []

/-- Mirror of svg::render: emits the node layers in the fixed source order
(background, bin markers, scale range, side texts, window border, bars,
legend, plot border); none whenever any stage panics. -/
def render (bp : BarPlot) : Option (List Node) := do
  let g1 ← genWithWindow bp
  let markerNodes ← markerStage bp g1
  let scaleNodes ← scaleStage bp g1
  let g2 := withScale bp g1
  let leftNodes ← textStage bp g2 Side.Left
  let rightNodes ← textStage bp g2 Side.Right
  let topNodes ← textStage bp g2 Side.Top
  let bottomNodes ← textStage bp g2 Side.Bottom
  some (bgStage bp ++ markerNodes ++ scaleNodes ++ leftNodes ++ rightNodes ++ topNodes
    ++ bottomNodes ++ windowBorderStage bp g2 ++ generateBars g2 bp.negativeBarsGoDown
    ++ legendStage bp g2 ++ plotBorderStage bp g2)

/-- Bool version of the color layout dimension assertions of BarPlot::to_svg. -/
def colorLayoutOk (bp : BarPlot) : Bool :=
  match bp.barColorVariant with
  | BarColors.Category colors => colors.length == bp.values.length
  | BarColors.Indexed matrix =>
    matrix.length == bp.values.length &&
      (bp.values.zip matrix).all (fun p => p.1.length == p.2.length)
  | _ => true

/-- Mirror of BarPlot::to_svg: the render entry point with its assertions;
none when an assertion fires or a render stage panics. -/
def toSvg (bp : BarPlot) (width height : ℕ) : Option (List Node) :=
  if bp.values.isEmpty then none
  else if colorLayoutOk bp then render { bp with size := some (width, height) }
  else none

/-- A custom guide line of the plot description (section 3 of the spec). -/
inductive CustomLine where
  | horizontal (percent : ℚ) (color : String)
  | vertical (percent : ℚ) (color : String)
  deriving DecidableEq

/-- Modelled from the spec: the custom guide line feature.  The method
BarPlot::add_vertical_line_at is called by tests/plots.rs but its
implementation is missing from the library sources under src.  Per
sections 4.6 and 4.7 of the spec, a vertical line at p percent is drawn at
x = x1 + pw * p / 100 spanning y1 to y2 at stroke width lw / 5, a
horizontal line at p percent at y = y1 + ph * p / 100 spanning x1 to x2 at
the same stroke. -/
def customLineNode (g : SvgGenerator) : CustomLine → Node
  | CustomLine.vertical p c =>
    let (x1, x2, y1, y2) := g.getPlotWindow
    let x := x1 + (x2 - x1) * p / 100
    Node.line x x y1 y2 c (g.getBaseLineWidth / 5)
  | CustomLine.horizontal p c =>
    let (x1, x2, y1, y2) := g.getPlotWindow
    let y := y1 + (y2 - y1) * p / 100
    Node.line x1 x2 y y c (g.getBaseLineWidth / 5)

/-- Modelled from the spec: render with a list of custom guide lines.  Per
the layering order of section 4.7 the custom lines are the last layer,
emitted after the plot border, in insertion order. -/
def renderWithCustomLines (bp : BarPlot) (custom : List CustomLine) :
    Option (List Node) := do
  let out ← render bp
  let g1 ← genWithWindow bp
  some (out ++ custom.map (customLineNode (withScale bp g1)))

/-- Recognizer for horizontal text nodes. -/
def isTextNode : Node → Bool
  | Node.text _ _ _ _ _ _ => true
  | _ => false

/-- Recognizer for line nodes. -/
def isLineNode : Node → Bool
  | Node.line _ _ _ _ _ _ => true
  | _ => false

/-- Recognizer for the value axis labels: horizontal text anchored end
(the only stage that anchors text at end is generate_scale_range). -/
def isEndText : Node → Bool
  | Node.text _ _ _ _ anchor _ => anchor == "end"
  | _ => false

/-- The leading x coordinate of a node. -/
def xOf : Node → ℚ
  | Node.rect x _ _ _ _ _ => x
  | Node.line x1 _ _ _ _ _ => x1
  | Node.text x _ _ _ _ _ => x
  | Node.textTopDown x _ _ _ _ _ => x
  | Node.textBottomUp x _ _ _ _ _ => x

/-- The text content of a node (empty for non-text nodes). -/
def contentOf : Node → String
  | Node.text _ _ _ _ _ s => s
  | Node.textTopDown _ _ _ _ _ s => s
  | Node.textBottomUp _ _ _ _ _ s => s
  | _ => ""

/-! ## Helper lemmas on the override scan -/

lemma ovMatch_eq_false {c b : ℕ} {e : ℕ × ℕ × String}
    (h : ¬(c = e.1 ∧ b = e.2.1)) : ovMatch c b e = false := by
  simp only [ovMatch, Bool.and_eq_false_iff, beq_eq_false_iff_ne, ne_eq]
  tauto

lemma find?_ovMatch_none {c b : ℕ} {l : List (ℕ × ℕ × String)}
    (h : ∀ e ∈ l, ¬(c = e.1 ∧ b = e.2.1)) : l.find? (ovMatch c b) = none :=
  List.find?_eq_none.mpr fun e he => by
    have := ovMatch_eq_false (h e he)
    simp [this]

/-! ## Claim C1 -/

/-- C1: with a Threshold bar color layout and no matching override for the
bar at (c, b) with value v, the resolved color is the max color when v
equals the computed global maximum, else the min color when v equals the
global minimum, else the high color when v is at least the global mean,
else the low color (exact rational comparison standing for the raw f64
comparison of the source). -/
theorem C1_threshold_color_rule (bp : BarPlot) (c b : ℕ) (v : ℚ)
    (mnC loC hiC mxC : String)
    (hvar : bp.barColorVariant = BarColors.Threshold mnC loC hiC mxC)
    (hov : ∀ e ∈ bp.barColorsOverride, ¬(c = e.1 ∧ b = e.2.1)) :
    (SvgGenerator.new bp).getBarColor c b v =
      if v = (SvgGenerator.new bp).max then mxC
      else if v = (SvgGenerator.new bp).min then mnC
      else if v ≥ (SvgGenerator.new bp).mean then hiC
      else loC := by
  have hfind : bp.barColorsOverride.find? (ovMatch c b) = none :=
    find?_ovMatch_none hov
  simp only [SvgGenerator.getBarColor, SvgGenerator.new, hfind, hvar]

/-- Concrete plot for the C1 witness: two series of two values each, a
threshold layout, and one override for a different bar. -/
def c1Bp : BarPlot :=
  { values := [[1, 5], [3, 9]],
    barColorVariant := BarColors.Threshold "mn" "lo" "hi" "mx",
    barColorsOverride := [(0, 0, "ov")] }

set_option maxRecDepth 8000 in
/-- Witness for C1: in c1Bp the bar at (1,1) carries the maximum value 9 and
resolves to the max color. -/
theorem C1_witness : (SvgGenerator.new c1Bp).getBarColor 1 1 9 = "mx" := by
  have h := C1_threshold_color_rule c1Bp 1 1 9 "mn" "lo" "hi" "mx" rfl (by decide)
  rw [h]
  decide

/-! ## Claim C3 -/

/-- C3: the first matching override in insertion order decides a bar color,
and appending an override entry for (c, b) resolves every position as
follows: a position already matched by an earlier entry keeps that earlier
entry color (so repeated identical overrides are idempotent), the position
(c, b) itself gets the new color when previously unmatched, and every
other position resolves exactly as before. -/
theorem C3_override_precedence (bp bp2 : BarPlot) (c b : ℕ) (clr : String) (v : ℚ)
    (hadd : addBarColorOverride bp c b clr = some bp2) :
    (∀ e, bp.barColorsOverride.find? (ovMatch c b) = some e →
      (SvgGenerator.new bp).getBarColor c b v = e.2.2) ∧
    (∀ c0 b0 : ℕ, ∀ v0 : ℚ,
      (SvgGenerator.new bp2).getBarColor c0 b0 v0 =
        match bp.barColorsOverride.find? (ovMatch c0 b0) with
        | some e => e.2.2
        | none =>
          if c0 = c ∧ b0 = b then clr
          else (SvgGenerator.new bp).getBarColor c0 b0 v0) := by
  have hbp2 : bp2 = { bp with barColorsOverride := bp.barColorsOverride ++ [(c, b, clr)] } := by
    unfold addBarColorOverride at hadd
    split at hadd
    · exact absurd hadd (by simp)
    · exact (Option.some.injEq _ _ ▸ hadd).symm
  constructor
  · intro e he
    simp only [SvgGenerator.getBarColor, SvgGenerator.new, he]
  · intro c0 b0 v0
    subst hbp2
    simp only [SvgGenerator.getBarColor, SvgGenerator.new]
    rw [List.find?_append]
    cases hfind : bp.barColorsOverride.find? (ovMatch c0 b0) with
    | some e => simp [Option.or]
    | none =>
      by_cases hcb : c0 = c ∧ b0 = b
      · obtain ⟨h1, h2⟩ := hcb
        subst h1; subst h2
        simp [Option.or, List.find?, ovMatch]
      · have : ovMatch c0 b0 (c, b, clr) = false := ovMatch_eq_false (by tauto)
        simp [Option.or, List.find?, this, hcb]

/-- Concrete plot for the C3 witness: one override present. -/
def c3Bp : BarPlot :=
  { values := [[1], [2]],
    barColorVariant := BarColors.Uniform "U",
    barColorsOverride := [(0, 0, "A")] }

/-- The C3 witness plot after appending an override for the same bar. -/
def c3Bp2 : BarPlot :=
  { c3Bp with barColorsOverride := c3Bp.barColorsOverride ++ [(0, 0, "B")] }

/-- Witness for C3: appending a second override for bar (0,0) leaves its
color at the first entry (idempotence) and leaves bar (1,0) at the uniform
color. -/
theorem C3_witness :
    (SvgGenerator.new c3Bp2).getBarColor 0 0 1 = "A" ∧
    (SvgGenerator.new c3Bp2).getBarColor 1 0 2 = "U" := by
  have h := C3_override_precedence c3Bp c3Bp2 0 0 "B" 1 (by decide)
  constructor
  · have h2 := h.2 0 0 1
    rw [h2]
    decide
  · have h2 := h.2 1 0 2
    rw [h2]
    decide

/-! ## Claim C10 -/

/-- Arithmetic of the downsampling divisor: (N + N mod M) / M vanishes
exactly when M exceeds twice the bin count. -/
lemma nth_marker_eq_zero_iff (N M : ℕ) (hM : 1 ≤ M) :
    (N + N % M) / M = 0 ↔ 2 * N < M := by
  rw [Nat.div_eq_zero_iff hM]
  constructor
  · intro h
    by_cases hMN : M ≤ N
    · have := Nat.mod_lt N (show 0 < M by omega)
      omega
    · push_neg at hMN
      rw [Nat.mod_eq_of_lt hMN] at h
      omega
  · intro h
    have hMN : N < M := by omega
    rw [Nat.mod_eq_of_lt hMN]
    omega

/-- C10: with at least one bin and a non-empty marker list, the bin marker
emission is total exactly when the divisor nth = (N + N mod M) / M is at
least 1, and when M exceeds 2N the divisor is 0 and render dies on the
remainder by zero of the label selection step. -/
theorem C10_marker_divisor_panic (bp : BarPlot) (v0 : List ℚ)
    (rest : List (List ℚ)) (markers : List String)
    (hval : bp.values = v0 :: rest) (hmk : bp.binMarkers = some markers)
    (hpw : bp.plotWindowScale = none)
    (hN : 1 ≤ v0.length) (hM : 1 ≤ markers.length) :
    ((generateBinMarkers (SvgGenerator.new bp) markers
        (bp.xAxisTickLength.getD DEFAULT_TICK_LENGTH) bp.binMarkerPosition
        bp.showVerticalLines).isSome
      ↔ 1 ≤ (v0.length + v0.length % markers.length) / markers.length) ∧
    (2 * v0.length < markers.length →
      (v0.length + v0.length % markers.length) / markers.length = 0 ∧
        render bp = none) := by
  have hnew : (SvgGenerator.new bp).values = v0 :: rest := by
    simp [SvgGenerator.new, hval]
  have hme : markers.isEmpty = false := by
    cases markers with
    | nil => simp at hM
    | cons m ms => simp
  constructor
  · rw [generateBinMarkers, hnew]
    dsimp only
    rw [if_neg (show ¬markers.length = 0 by omega)]
    by_cases hz : (v0.length + v0.length % markers.length) / markers.length = 0
    · rw [if_pos ⟨by omega, hz⟩, hz]
      simp
    · rw [if_neg (by tauto)]
      simpa using Nat.pos_of_ne_zero hz
  · intro hlt
    have hzero : (v0.length + v0.length % markers.length) / markers.length = 0 :=
      (nth_marker_eq_zero_iff v0.length markers.length hM).mpr hlt
    refine ⟨hzero, ?_⟩
    have hg : genWithWindow bp = some (SvgGenerator.new bp) := by
      simp [genWithWindow, hpw]
    have hnone : generateBinMarkers (SvgGenerator.new bp) markers
        (bp.xAxisTickLength.getD DEFAULT_TICK_LENGTH) bp.binMarkerPosition
        bp.showVerticalLines = none := by
      rw [generateBinMarkers, hnew]
      simp only [hme]
      split
      · rfl
      · split
        · rfl
        · omega
    rw [render]
    simp [hg, markerStage, hmk, hme, hnone]

/-- Concrete plot for the C10 witness: one bin, three markers. -/
def c10Bp : BarPlot := { values := [[5]], binMarkers := some ["a", "b", "c"] }

/-- Witness for C10: with N = 1 bin and M = 3 markers the divisor is 0 and
render panics (returns none in the model). -/
theorem C10_witness :
    (1 + 1 % 3) / 3 = 0 ∧ render c10Bp = none := by
  have h := C10_marker_divisor_panic c10Bp [5] [] ["a", "b", "c"]
    rfl rfl rfl (by decide) (by decide)
  exact h.2 (by decide)

/-! ## Claim C4 -/

/-- Amended C4: rendering halts on an empty series list, on color layout
dimensions that do not match the data shape, on a plot window percentage
above 100, and on a zero scale step; a degenerate or inverted scale range
(min at least max, with a positive step) does not halt rendering.
Mismatched series lengths are rejected when the values are added. -/
theorem C4_render_failures (bp : BarPlot) (width height : ℕ) :
    (bp.values = [] → toSvg bp width height = none) ∧
    (bp.values.isEmpty = false → colorLayoutOk bp = false →
      toSvg bp width height = none) ∧
    (∀ a b c d : ℤ, bp.plotWindowScale = some (a, b, c, d) → 100 < a →
      bp.values.isEmpty = false → colorLayoutOk bp = true →
      toSvg bp width height = none) ∧
    (∀ mn mx : ℤ, bp.scaleRange = some (mn, mx, 0) →
      bp.values.isEmpty = false → colorLayoutOk bp = true →
      toSvg bp width height = none) ∧
    (∀ vs : List ℚ, bp.values ≠ [] → (bp.values.headD []).length ≠ vs.length →
      addValues bp vs = none) := by
  refine ⟨?_, ?_, ?_, ?_, ?_⟩
  · intro h
    simp [toSvg, h]
  · intro h1 h2
    simp [toSvg, h1, h2]
  · intro a b c d hpw ha h1 h2
    simp only [toSvg, h1, Bool.false_eq_true, if_false, h2, if_true]
    rw [render]
    have : genWithWindow { bp with size := some (width, height) } = none := by
      simp only [genWithWindow, hpw, setPlotWindowSize]
      rw [if_neg (by omega)]
      rfl
    simp [this]
  · intro mn mx hsr h1 h2
    simp only [toSvg, h1, Bool.false_eq_true, if_false, h2, if_true]
    rw [render]
    cases hg : genWithWindow { bp with size := some (width, height) } with
    | none => rfl
    | some g1 =>
      cases hm : markerStage { bp with size := some (width, height) } g1 with
      | none => simp [hm]
      | some mN =>
        have hsc : scaleStage { bp with size := some (width, height) } g1 = none := by
          simp only [scaleStage, hsr, generateScaleRange]
          split
          · rename_i hc
            rcases g1.plotWindow with ⟨xL, xO, yL, yO⟩
            simp at hc
          · rfl
        simp [hm, hsc]
  · intro vs hne hlen
    simp only [addValues]
    rw [if_neg (by simpa using hne), if_neg hlen]

/-- Family of plots with an explicit scale range for the C4 analysis: one
value, the window shrunk to half the canvas. -/
def c4Plot (mn mx : ℤ) (st : ℕ) : BarPlot :=
  { values := [[1]], scaleRange := some (mn, mx, st),
    plotWindowScale := some (50, 50, 50, 50) }

/-- C4 counterexample: the claim says every description whose scale range
has min at least max fails to render, but the plot with scale (0, 0, 1)
renders to an SVG document. -/
theorem C4_counterexample : (toSvg (c4Plot 0 0 1) 100 100).isSome = true := by
  decide

/-- Witness for C4: an empty series list halts, a zero step halts, and an
inverted scale range (5, 3, 1) does not halt. -/
theorem C4_witness :
    toSvg { values := [] } 10 10 = none ∧
    toSvg (c4Plot 0 10 0) 100 100 = none := by
  constructor
  · exact (C4_render_failures { values := [] } 10 10).1 rfl
  · exact (C4_render_failures (c4Plot 0 10 0) 100 100).2.2.2.1 0 10 rfl rfl rfl

/-! ## Bars: indexing and membership -/

lemma getElem?_lt_length {α : Type} {l : List α} {n : ℕ} {a : α}
    (h : l[n]? = some a) : n < l.length := by
  by_contra hn
  push_neg at hn
  rw [List.getElem?_eq_none hn] at h
  exact Option.noConfusion h

lemma getElem?_mem {α : Type} {l : List α} {n : ℕ} {a : α}
    (h : l[n]? = some a) : a ∈ l := by
  obtain ⟨hlt, rfl⟩ := List.getElem?_eq_some_iff.mp h
  exact List.getElem_mem hlt

lemma rowBars_length (g : SvgGenerator) (d : Bool) (ci : ℕ) :
    ∀ (bi : ℕ) (row : List ℚ), (rowBars g d ci bi row).length = row.length
  | _, [] => rfl
  | bi, _ :: t => by simp [rowBars, rowBars_length g d ci (bi + 1) t]

lemma rowBars_getElem? (g : SvgGenerator) (d : Bool) (ci : ℕ) :
    ∀ (row : List ℚ) (bi b : ℕ) (v : ℚ), row[b]? = some v →
      (rowBars g d ci bi row)[b]? = some (barRect g d ci (bi + b) v)
  | [], _, b, _, h => by simp at h
  | a :: t, bi, 0, v, h => by
    simp only [List.getElem?_cons_zero, Option.some.injEq] at h
    subst h
    simp [rowBars]
  | a :: t, bi, b + 1, v, h => by
    simp only [List.getElem?_cons_succ] at h
    have ih := rowBars_getElem? g d ci t (bi + 1) b v h
    have harith : bi + 1 + b = bi + (b + 1) := by omega
    rw [harith] at ih
    simpa [rowBars] using ih

lemma catBars_getElem? (g : SvgGenerator) (d : Bool) (N : ℕ) :
    ∀ (rows : List (List ℚ)) (ci c b : ℕ) (row : List ℚ) (v : ℚ),
      (∀ r ∈ rows, r.length = N) → rows[c]? = some row → row[b]? = some v →
      (catBars g d ci rows)[c * N + b]? = some (barRect g d (ci + c) b v)
  | [], _, c, _, _, _, _, hc, _ => by simp at hc
  | r0 :: rest, ci, 0, b, row, v, hlen, hc, hb => by
    simp only [List.getElem?_cons_zero, Option.some.injEq] at hc
    subst hc
    have hblt : b < (rowBars g d ci 0 r0).length := by
      rw [rowBars_length]
      exact getElem?_lt_length hb
    simp only [catBars, Nat.zero_mul, Nat.zero_add]
    rw [List.getElem?_append_left hblt]
    simpa using rowBars_getElem? g d ci r0 0 b v hb
  | r0 :: rest, ci, c + 1, b, row, v, hlen, hc, hb => by
    simp only [List.getElem?_cons_succ] at hc
    have h0 : r0.length = N := hlen r0 (by simp)
    have heq : (c + 1) * N + b = r0.length + (c * N + b) := by
      rw [h0]; ring
    have hge : (rowBars g d ci 0 r0).length ≤ (c + 1) * N + b := by
      rw [rowBars_length, heq]; omega
    have ih := catBars_getElem? g d N rest (ci + 1) c b row v
      (fun r hr => hlen r (by simp [hr])) hc hb
    have harith : ci + 1 + c = ci + (c + 1) := by omega
    rw [harith] at ih
    simp only [catBars]
    rw [List.getElem?_append_right hge, rowBars_length, heq]
    simpa using ih

lemma mem_rowBars {g : SvgGenerator} {d : Bool} {ci : ℕ} :
    ∀ {bi : ℕ} {row : List ℚ} {node : Node},
      node ∈ rowBars g d ci bi row →
      ∃ b v, row[b]? = some v ∧ node = barRect g d ci (bi + b) v := by
  intro bi row
  induction row generalizing bi with
  | nil => intro node h; simp [rowBars] at h
  | cons a t ih =>
    intro node h
    simp only [rowBars, List.mem_cons] at h
    rcases h with h | h
    · exact ⟨0, a, by simp, by simpa using h⟩
    · obtain ⟨b, v, hb, hn⟩ := ih h
      refine ⟨b + 1, v, by simpa using hb, ?_⟩
      rw [hn]
      have : bi + 1 + b = bi + (b + 1) := by omega
      rw [this]

lemma mem_catBars {g : SvgGenerator} {d : Bool} :
    ∀ {ci : ℕ} {rows : List (List ℚ)} {node : Node},
      node ∈ catBars g d ci rows →
      ∃ c row, rows[c]? = some row ∧ node ∈ rowBars g d (ci + c) 0 row := by
  intro ci rows
  induction rows generalizing ci with
  | nil => intro node h; simp [catBars] at h
  | cons r rest ih =>
    intro node h
    simp only [catBars, List.mem_append] at h
    rcases h with h | h
    · exact ⟨0, r, by simp, by simpa using h⟩
    · obtain ⟨c, row, hc, hn⟩ := ih h
      refine ⟨c + 1, row, by simpa using hc, ?_⟩
      have : ci + 1 + c = ci + (c + 1) := by omega
      rwa [this] at hn

/-! ## Claim C2 -/

/-- Concrete plot for the C2 counterexample: one positive value 5 on a
100 by 100 canvas. -/
def c2Bp : BarPlot := { values := [[5]], size := some (100, 100) }

/-- The generator for c2Bp as generate_bars sees it after a scale range
(-10, 10, 5) was set. -/
def c2Gen : SvgGenerator :=
  { SvgGenerator.new c2Bp with scaleRange := some (-10, 10, 5) }

set_option maxRecDepth 16000 in
/-- C2 counterexample: with the negative-down flag set, all-positive data
and scale (-10, 10, 5), the emitted bar rect has height 75 (the guarded
else branch), not the height 5 * (100 / 20) = 25 demanded by the claim
rule applied unguarded. -/
theorem C2_counterexample :
    generateBars c2Gen true = [Node.rect 5 25 90 75 1 DEFAULT_BAR_COLOR] ∧
    ¬((75 : ℚ) = 5 * (100 / (10 - (-10 : ℚ)))) := by
  constructor
  · decide
  · decide

/-- Amended C2: the negative-down placement rule is guarded: when the flag
is set and the data minimum is negative, a bar of value v gets height v*u
and top y2 + topOffset - height for v at least 0, and height the absolute
value of v*u with top y2 + topOffset otherwise; when the data minimum is
not negative the standard rule applies even with the flag set: height
v*u - topOffset and top yFloor - height. -/
theorem C2_guarded_negative_down (g : SvgGenerator) (flag : Bool) (N : ℕ)
    (hrows : ∀ row ∈ g.values, row.length = N)
    (c b : ℕ) (row : List ℚ) (v : ℚ)
    (hc : g.values[c]? = some row) (hb : row[b]? = some v) :
    (generateBars g flag)[c * N + b]? =
      some (Node.rect
        (g.plotWindow.2.1 + barsBarWidth g * (c : ℚ) + barsBinWidth g * (b : ℚ)
          + barsBinMargin g - barsBinMargin g / 2 + barsBarMargin g / 2)
        (if flag = true ∧ g.min < 0 then
          if 0 ≤ v then barsYFloor g + barsTopOffset g - v * barsScaleUnit g
          else barsYFloor g + barsTopOffset g
         else barsYFloor g - (v * barsScaleUnit g - barsTopOffset g))
        (barsBarWidth g - barsBarMargin g)
        (if flag = true ∧ g.min < 0 then
          if 0 ≤ v then v * barsScaleUnit g
          else |v * barsScaleUnit g|
         else v * barsScaleUnit g - barsTopOffset g)
        1 (g.getBarColor c b v)) := by
  rw [generateBars]
  rw [catBars_getElem? g flag N g.values 0 c b row v hrows hc hb]
  simp only [Nat.zero_add, barRect]
  split_ifs <;> rfl

set_option maxRecDepth 16000 in
/-- Witness for the amended C2 at the concrete counterexample generator:
the single bar evaluates to the guarded geometry. -/
theorem C2_witness :
    (generateBars c2Gen true)[0 * 1 + 0]? =
      some (Node.rect 5 25 90 75 1 DEFAULT_BAR_COLOR) := by
  have h := C2_guarded_negative_down c2Gen true 1 (by decide) 0 0 [5] 5 rfl rfl
  rw [h]
  decide

/-! ## Statistics: the computed minimum -/

lemma foldl_statsStep_min (arr : List ℚ) :
    ∀ st : Stats, (arr.foldl statsStep st).min = arr.foldl (fun m f => Min.min f m) st.min := by
  induction arr with
  | nil => intro st; rfl
  | cons a t ih => intro st; simp only [List.foldl_cons]; rw [ih]; rfl

lemma statsPass_min_eq (values : List (List ℚ)) :
    (statsPass values).min
      = values.foldl (fun m arr => arr.foldl (fun m f => Min.min f m) m) F64_MAX := by
  rw [statsPass]
  generalize hst : ({ max := F64_MIN, min := F64_MAX, sum := 0, barCount := 0 } : Stats) = st
  have : st.min = F64_MAX := by rw [← hst]
  rw [← this]
  clear hst this
  induction values generalizing st with
  | nil => rfl
  | cons arr rest ih =>
    simp only [List.foldl_cons]
    rw [ih, foldl_statsStep_min]

lemma foldl_min_lt {c : ℚ} {l : List ℚ} :
    ∀ {init : ℚ}, l.foldl (fun m f => Min.min f m) init < c →
      init < c ∨ ∃ x ∈ l, x < c := by
  induction l with
  | nil => intro init h; exact Or.inl h
  | cons a t ih =>
    intro init h
    simp only [List.foldl_cons] at h
    rcases ih h with h2 | ⟨x, hx, hxc⟩
    · rcases min_lt_iff.mp h2 with h3 | h3
      · exact Or.inr ⟨a, List.mem_cons_self a t, h3⟩
      · exact Or.inl h3
    · exact Or.inr ⟨x, List.mem_cons_of_mem a hx, hxc⟩

lemma foldl2_min_lt {c : ℚ} {values : List (List ℚ)} :
    ∀ {init : ℚ},
      values.foldl (fun m arr => arr.foldl (fun m f => Min.min f m) m) init < c →
      init < c ∨ ∃ row ∈ values, ∃ x ∈ row, x < c := by
  induction values with
  | nil => intro init h; exact Or.inl h
  | cons arr rest ih =>
    intro init h
    simp only [List.foldl_cons] at h
    rcases ih h with h2 | ⟨row, hrow, x, hx, hxc⟩
    · rcases foldl_min_lt h2 with h3 | ⟨x, hx, hxc⟩
      · exact Or.inl h3
      · exact Or.inr ⟨arr, List.mem_cons_self arr rest, x, hx, hxc⟩
    · exact Or.inr ⟨row, List.mem_cons_of_mem arr hrow, x, hx, hxc⟩

/-- If the computed running minimum is below c, either the sentinel is below
c or some data value is. -/
lemma statsPass_min_lt {values : List (List ℚ)} {c : ℚ}
    (h : (statsPass values).min < c) :
    F64_MAX < c ∨ ∃ row ∈ values, ∃ x ∈ row, x < c := by
  rw [statsPass_min_eq] at h
  exact foldl2_min_lt h

/-- With only non-negative data values the computed minimum is non-negative
(the sentinel seed is positive). -/
lemma statsPass_min_nonneg {values : List (List ℚ)}
    (h : ∀ row ∈ values, ∀ v ∈ row, 0 ≤ v) : ¬(statsPass values).min < 0 := by
  intro hlt
  rcases statsPass_min_lt hlt with h2 | ⟨row, hrow, x, hx, hxc⟩
  · have : (0 : ℚ) ≤ F64_MAX := by
      rw [F64_MAX]
      positivity
    exact absurd h2 (not_lt.mpr this)
  · exact absurd hxc (not_lt.mpr (h row hrow x hx))

/-! ## Render decomposition -/

lemma render_eq_some_iff (bp : BarPlot) (out : List Node) :
    render bp = some out ↔
      ∃ g1 mN sN lN rN tN bN,
        genWithWindow bp = some g1 ∧
        markerStage bp g1 = some mN ∧
        scaleStage bp g1 = some sN ∧
        textStage bp (withScale bp g1) Side.Left = some lN ∧
        textStage bp (withScale bp g1) Side.Right = some rN ∧
        textStage bp (withScale bp g1) Side.Top = some tN ∧
        textStage bp (withScale bp g1) Side.Bottom = some bN ∧
        out = (bgStage bp ++ mN ++ sN ++ lN ++ rN ++ tN ++ bN
            ++ windowBorderStage bp (withScale bp g1))
          ++ (generateBars (withScale bp g1) bp.negativeBarsGoDown
            ++ (legendStage bp (withScale bp g1)
              ++ plotBorderStage bp (withScale bp g1))) := by
  simp only [render, Option.bind_eq_bind, Option.bind_eq_some, Option.some.injEq]
  constructor
  · rintro ⟨g1, hg1, mN, hm, sN, hs, lN, hl, rN, hr, tN, ht, bN, hb, hout⟩
    refine ⟨g1, mN, sN, lN, rN, tN, bN, hg1, hm, hs, hl, hr, ht, hb, ?_⟩
    rw [← hout]
    simp [List.append_assoc]
  · rintro ⟨g1, mN, sN, lN, rN, tN, bN, hg1, hm, hs, hl, hr, ht, hb, hout⟩
    refine ⟨g1, hg1, mN, hm, sN, hs, lN, hl, rN, hr, tN, ht, bN, hb, ?_⟩
    rw [hout]
    simp [List.append_assoc]

lemma genWithWindow_shape {bp : BarPlot} {g : SvgGenerator}
    (h : genWithWindow bp = some g) :
    ∃ pw, g = { SvgGenerator.new bp with plotWindow := pw } := by
  cases hpw : bp.plotWindowScale with
  | none =>
    simp only [genWithWindow, hpw, Option.bind_eq_bind, Option.some_bind,
      Option.some.injEq] at h
    exact ⟨(SvgGenerator.new bp).plotWindow, h.symm⟩
  | some q =>
    obtain ⟨a, b2, c2, d⟩ := q
    simp only [genWithWindow, hpw, Option.bind_eq_bind] at h
    cases hset : setPlotWindowSize (SvgGenerator.new bp) a b2 c2 d with
    | none => rw [hset] at h; simp at h
    | some pw =>
      rw [hset] at h
      simp only [Option.some_bind, Option.some.injEq] at h
      exact ⟨pw, h.symm⟩

lemma withScale_min (bp : BarPlot) (g : SvgGenerator) :
    (withScale bp g).min = g.min := by
  cases h : bp.scaleRange <;> simp [withScale, h]

lemma withScale_values (bp : BarPlot) (g : SvgGenerator) :
    (withScale bp g).values = g.values := by
  cases h : bp.scaleRange <;> simp [withScale, h]

/-! ## Flag independence of the bar geometry for non-negative data -/

lemma barRect_flag {g : SvgGenerator} (h : ¬g.min < 0) (ci bi : ℕ) (v : ℚ) :
    barRect g true ci bi v = barRect g false ci bi v := by
  simp only [barRect]
  rw [if_neg (by simp [h]), if_neg (by simp)]

lemma rowBars_flag {g : SvgGenerator} (h : ¬g.min < 0) (ci : ℕ) :
    ∀ (bi : ℕ) (row : List ℚ), rowBars g true ci bi row = rowBars g false ci bi row
  | _, [] => rfl
  | bi, a :: t => by
    simp only [rowBars]
    rw [barRect_flag h, rowBars_flag h ci (bi + 1) t]

lemma catBars_flag {g : SvgGenerator} (h : ¬g.min < 0) :
    ∀ (ci : ℕ) (rows : List (List ℚ)), catBars g true ci rows = catBars g false ci rows
  | _, [] => rfl
  | ci, r :: rest => by
    simp only [catBars]
    rw [rowBars_flag h, catBars_flag h (ci + 1) rest]

lemma generateBars_flag {g : SvgGenerator} (h : ¬g.min < 0) (b1 b2 : Bool) :
    generateBars g b1 = generateBars g b2 := by
  have key : generateBars g true = generateBars g false := by
    simp only [generateBars]
    exact catBars_flag h 0 g.values
  cases b1 <;> cases b2 <;> simp [key]

lemma render_flag_mono (bp : BarPlot) (b1 b2 : Bool) (out : List Node)
    (hmin : ¬(statsPass bp.values).min < 0)
    (h : render { bp with negativeBarsGoDown := b1 } = some out) :
    render { bp with negativeBarsGoDown := b2 } = some out := by
  rw [render_eq_some_iff] at h ⊢
  obtain ⟨g1, mN, sN, lN, rN, tN, bN, hg1, hm, hs, hl, hr, ht, hb, hout⟩ := h
  refine ⟨g1, mN, sN, lN, rN, tN, bN, hg1, hm, hs, hl, hr, ht, hb, ?_⟩
  rw [hout]
  have hg1min : g1.min = (statsPass bp.values).min := by
    obtain ⟨pw, rfl⟩ := genWithWindow_shape hg1
    rfl
  have hbars :
      generateBars (withScale { bp with negativeBarsGoDown := b1 } g1) b1
        = generateBars (withScale { bp with negativeBarsGoDown := b1 } g1) b2 := by
    apply generateBars_flag
    rw [withScale_min, hg1min]
    exact hmin
  congr 1
  exact hbars.symm ▸ rfl

/-! ## Claim C8 -/

/-- C8: with only non-negative values, rendering with the negative-down
flag set is identical to rendering with it unset (the guard of
generate_bars sees a non-negative data minimum and takes the standard
branch either way). -/
theorem C8_flag_noop (bp : BarPlot) (W H : ℕ)
    (h : ∀ row ∈ bp.values, ∀ v ∈ row, 0 ≤ v) :
    toSvg { bp with negativeBarsGoDown := true } W H
      = toSvg { bp with negativeBarsGoDown := false } W H := by
  have hmin : ¬(statsPass bp.values).min < 0 := statsPass_min_nonneg h
  have hrender :
      render { bp with negativeBarsGoDown := true, size := some (W, H) }
        = render { bp with negativeBarsGoDown := false, size := some (W, H) } := by
    cases hr : render { bp with negativeBarsGoDown := true, size := some (W, H) } with
    | some out =>
      have h2 := render_flag_mono { bp with size := some (W, H) } true false out hmin hr
      exact h2.symm
    | none =>
      cases hf : render { bp with negativeBarsGoDown := false, size := some (W, H) } with
      | none => rfl
      | some out2 =>
        have h2 := render_flag_mono { bp with size := some (W, H) } false true out2 hmin hf
        exact Option.noConfusion (hr.symm.trans h2)
  show (if bp.values.isEmpty = true then none
      else if colorLayoutOk bp = true
      then render { bp with negativeBarsGoDown := true, size := some (W, H) } else none)
    = (if bp.values.isEmpty = true then none
      else if colorLayoutOk bp = true
      then render { bp with negativeBarsGoDown := false, size := some (W, H) } else none)
  rw [hrender]

/-- Concrete plot for the C8 witness. -/
def c8Bp : BarPlot := { values := [[0, 2], [1, 3]] }

/-- Witness for C8 at a concrete non-negative plot. -/
theorem C8_witness :
    toSvg { c8Bp with negativeBarsGoDown := true } 100 100
      = toSvg { c8Bp with negativeBarsGoDown := false } 100 100 :=
  C8_flag_noop c8Bp 100 100 (by decide)

/-! ## Claim C7 -/

/-- C7: appending one custom vertical line at p percent emits exactly one
extra line primitive, placed after every other node (in particular after
the plot border, which is the last layer of render), at
x = x1 + (x2 - x1) * p / 100 spanning y1 to y2 with stroke lw / 5. -/
theorem C7_custom_vertical_line (bp : BarPlot) (p : ℚ) (clr : String)
    (out : List Node) (g1 : SvgGenerator)
    (hout : render bp = some out) (hg : genWithWindow bp = some g1) :
    renderWithCustomLines bp [CustomLine.vertical p clr]
      = some (out ++ [Node.line
          ((withScale bp g1).getPlotWindow.1
            + ((withScale bp g1).getPlotWindow.2.1
              - (withScale bp g1).getPlotWindow.1) * p / 100)
          ((withScale bp g1).getPlotWindow.1
            + ((withScale bp g1).getPlotWindow.2.1
              - (withScale bp g1).getPlotWindow.1) * p / 100)
          ((withScale bp g1).getPlotWindow.2.2.1)
          ((withScale bp g1).getPlotWindow.2.2.2)
          clr ((withScale bp g1).getBaseLineWidth / 5)]) ∧
    (renderWithCustomLines bp [CustomLine.vertical p clr]).map List.length
      = some (out.length + 1) := by
  have hmain : renderWithCustomLines bp [CustomLine.vertical p clr]
      = some (out ++ [customLineNode (withScale bp g1) (CustomLine.vertical p clr)]) := by
    simp [renderWithCustomLines, hout, hg]
  constructor
  · rw [hmain]
    rcases hw : (withScale bp g1).plotWindow with ⟨xL, xO, yL, yO⟩
    simp [customLineNode, SvgGenerator.getPlotWindow, hw]
  · rw [hmain]
    simp

/-- Concrete plot for the C7 witness. -/
def c7Bp : BarPlot := { values := [[1]], size := some (100, 100) }

/-- The rendered output of the C7 witness plot. -/
def c7Out : List Node := (render c7Bp).getD []

/-- The configured generator of the C7 witness plot. -/
def c7G : SvgGenerator := (genWithWindow c7Bp).getD (SvgGenerator.new c7Bp)

set_option maxRecDepth 16000 in
/-- Witness for C7: a vertical line at 37.5 percent colored White lands at
x = 37.5 on the 100 by 100 canvas, appended after all other nodes. -/
theorem C7_witness :
    renderWithCustomLines c7Bp [CustomLine.vertical (75/2) "White"]
      = some (c7Out ++ [Node.line (75/2) (75/2) 0 100 "White" (1/5)]) := by
  have h := C7_custom_vertical_line c7Bp (75/2) "White" c7Out c7G (by decide) (by decide)
  rw [h.1]
  decide

/-! ## Claim C5: bin marker downsampling -/

/-- The pairs (label index, bin index) selected by the bin marker loop. -/
def labelIdx (nth M : ℕ) : ℕ → List ℕ → List (ℕ × ℕ)
  | _, [] => []
  | mi, i :: rest =>
    if i % nth = 0 ∧ mi < M then (mi, i) :: labelIdx nth M (mi + 1) rest
    else labelIdx nth M mi rest

lemma labelIdx_eq (nth M : ℕ) :
    ∀ (idxs : List ℕ) (mi : ℕ),
      labelIdx nth M mi idxs
        = List.enumFrom mi ((idxs.filter (fun i => decide (i % nth = 0))).take (M - mi))
  | [], mi => by simp [labelIdx]
  | i :: rest, mi => by
    rw [labelIdx]
    by_cases hmod : i % nth = 0
    · by_cases hmi : mi < M
      · rw [if_pos ⟨hmod, hmi⟩]
        have ht : M - mi = (M - (mi + 1)) + 1 := by omega
        simp only [List.filter_cons, hmod, decide_True, ht, List.take_succ_cons,
          List.enumFrom]
        rw [labelIdx_eq nth M rest (mi + 1)]
      · rw [if_neg (by tauto)]
        have h0 : M - mi = 0 := by omega
        have h1 : M - (mi + 1) = 0 := by omega
        rw [labelIdx_eq nth M rest mi]
        by_cases hmi2 : mi < M
        · omega
        · simp [h0]
    · rw [if_neg (by tauto)]
      rw [labelIdx_eq nth M rest mi]
      simp [List.filter_cons, hmod]

lemma binMarkerLoop_filter_text (g : SvgGenerator) (markers : List String)
    (off : ℤ) (nth : ℕ) (su shift y y2 y3 : ℚ) (sv : Bool) :
    ∀ (idxs : List ℕ) (mi : ℕ),
      (binMarkerLoop g markers off nth su shift y y2 y3 sv mi idxs).filter isTextNode
        = (labelIdx nth markers.length mi idxs).map
            (fun q => Node.text (g.plotWindow.2.1 + su * (q.2 : ℚ) + shift) y3
              g.textColor g.getFontSize "middle" (markers.getD q.1 ""))
  | [], mi => by simp [binMarkerLoop, labelIdx]
  | i :: rest, mi => by
    have ih1 := binMarkerLoop_filter_text g markers off nth su shift y y2 y3 sv rest (mi + 1)
    have ih2 := binMarkerLoop_filter_text g markers off nth su shift y y2 y3 sv rest mi
    rcases hpw : g.plotWindow with ⟨xL, xO, yL, yO⟩
    rw [binMarkerLoop, labelIdx]
    simp only [hpw] at ih1 ih2 ⊢
    by_cases hsel : i % nth = 0 ∧ mi < markers.length
    · rw [if_pos hsel, if_pos hsel]
      simp only [List.filter_append, List.filter_cons, ih1]
      cases sv <;> by_cases h2 : off ≠ 0 <;>
        simp [h2, isTextNode]
    · rw [if_neg hsel, if_neg hsel]
      simp only [List.filter_append, ih2]
      cases sv <;> by_cases h2 : off ≠ 0 <;>
        simp [h2, isTextNode]

lemma binMarkerLoop_filter_line (g : SvgGenerator) (markers : List String)
    (off : ℤ) (hoff : off ≠ 0) (nth : ℕ) (su shift y y2 y3 : ℚ) :
    ∀ (idxs : List ℕ) (mi : ℕ),
      ((binMarkerLoop g markers off nth su shift y y2 y3 false mi idxs).filter
        isLineNode).length = idxs.length
  | [], mi => by simp [binMarkerLoop]
  | i :: rest, mi => by
    have ih1 := binMarkerLoop_filter_line g markers off hoff nth su shift y y2 y3 rest (mi + 1)
    have ih2 := binMarkerLoop_filter_line g markers off hoff nth su shift y y2 y3 rest mi
    rcases hpw : g.plotWindow with ⟨xL, xO, yL, yO⟩
    rw [binMarkerLoop]
    simp only [hpw] at ih1 ih2 ⊢
    by_cases hsel : i % nth = 0 ∧ mi < markers.length
    · rw [if_pos hsel]
      simp [hoff, isLineNode, isTextNode, ih1]
    · rw [if_neg hsel]
      simp [hoff, isLineNode, isTextNode, ih2]

/-- Amended C5: with 1 <= M < N markers, per-bin ticks are emitted at all N
positions (when the x tick length is non-zero and vertical gridlines are
off, every emitted line is a tick), and the label texts are placed, in
marker order, on the first min(M, count of multiples) bins whose index is
a multiple of nth = (N + N mod M) / M; bins that are multiples of nth
beyond the first M get no label, and fewer than M labels appear when fewer
multiples exist. -/
theorem C5_marker_downsampling (g : SvgGenerator) (v0 : List ℚ)
    (rest : List (List ℚ)) (markers : List String) (off : ℤ)
    (pos : BinMarkerPosition) (out : List Node)
    (hval : g.values = v0 :: rest)
    (hM : 0 < markers.length) (hMN : markers.length < v0.length)
    (hoff : off ≠ 0)
    (hout : generateBinMarkers g markers off pos false = some out) :
    (out.filter isLineNode).length = v0.length ∧
    out.filter isTextNode =
      (List.enumFrom 0 (((List.range v0.length).filter
          (fun i => decide (i % ((v0.length + v0.length % markers.length) / markers.length) = 0))).take
        markers.length)).map
        (fun q => Node.text
          (g.plotWindow.2.1 + (g.plotWindow.1 / (v0.length : ℚ)) * (q.2 : ℚ)
            + (match pos with
               | BinMarkerPosition.Middle => g.plotWindow.1 / (v0.length : ℚ) / 2
               | BinMarkerPosition.Left => 0
               | BinMarkerPosition.Right => g.plotWindow.1 / (v0.length : ℚ)))
          (g.plotWindow.2.2.1 + g.plotWindow.2.2.2
            + (g.getSvgHeight - (g.plotWindow.2.2.1 + g.plotWindow.2.2.2)) / 100 * (off : ℚ)
            + g.getFontSize)
          g.textColor g.getFontSize "middle" (markers.getD q.1 "")) ∧
    (out.filter isTextNode).length
      = Min.min markers.length
          (((List.range v0.length).filter
            (fun i => decide (i % ((v0.length + v0.length % markers.length) / markers.length) = 0))).length) := by
  have hnth : 1 ≤ (v0.length + v0.length % markers.length) / markers.length :=
    (Nat.one_le_div_iff hM).mpr (by omega)
  rcases hpw : g.plotWindow with ⟨xL, xO, yL, yO⟩
  rw [generateBinMarkers, hval, hpw] at hout
  dsimp only at hout
  rw [if_neg (show ¬markers.length = 0 by omega),
    if_neg (show ¬(v0.length ≠ 0 ∧ (v0.length + v0.length % markers.length) / markers.length = 0)
      by omega)] at hout
  simp only [Option.some.injEq] at hout
  subst hout
  dsimp only
  refine ⟨?_, ?_, ?_⟩
  · rw [binMarkerLoop_filter_line g markers off hoff, List.length_range]
  · rw [binMarkerLoop_filter_text g markers off, labelIdx_eq, Nat.sub_zero]
    simp only [hpw]
  · rw [binMarkerLoop_filter_text g markers off, labelIdx_eq, Nat.sub_zero,
      List.length_map, List.enumFrom_length, List.length_take]

/-- Concrete plot for the C5 counterexample: 10 bins on a 100 by 100
canvas. -/
def c5Bp : BarPlot := { values := [List.replicate 10 0], size := some (100, 100) }

set_option maxRecDepth 16000 in
/-- C5 counterexample: with N = 10 bins and M = 3 markers the divisor is
nth = (10 + 1) / 3 = 3 and labels land on bins 0, 3, 6 only (x positions 0,
30, 60); bin 9 is also a multiple of 3 but gets no label, refuting that
labels sit exactly on the bins whose index is a multiple of nth. -/
theorem C5_counterexample :
    (generateBinMarkers (SvgGenerator.new c5Bp) ["a", "b", "c"] 10
        BinMarkerPosition.Left false).map (fun l => (l.filter isTextNode).map xOf)
      = some [0, 30, 60] ∧
    9 % ((10 + 10 % 3) / 3) = 0 ∧
    ¬((90 : ℚ) ∈ ([0, 30, 60] : List ℚ)) := by
  refine ⟨by decide, by decide, by decide⟩

/-- Concrete output for the C5 witness. -/
def c5Out : List Node :=
  (generateBinMarkers (SvgGenerator.new c5Bp) ["a", "b", "c"] 10
    BinMarkerPosition.Left false).getD []

set_option maxRecDepth 16000 in
/-- Witness for the amended C5 at the concrete counterexample input: 10
tick lines and labels on the first three multiples of 3. -/
theorem C5_witness :
    (c5Out.filter isLineNode).length = 10 ∧
    (c5Out.filter isTextNode).length
      = Min.min 3 (((List.range 10).filter (fun i => decide (i % 3 = 0))).length) := by
  have h := C5_marker_downsampling (SvgGenerator.new c5Bp) (List.replicate 10 0) []
    ["a", "b", "c"] 10 BinMarkerPosition.Left c5Out rfl (by decide) (by decide)
    (by decide) (by decide)
  exact ⟨h.1, h.2.2⟩

/-! ## Claim C6: value axis labels -/

lemma filter_endText_flatMap_content {α : Type} (F : α → List Node) (s : α → String)
    (hF : ∀ a, ((F a).filter isEndText).map contentOf = [s a]) :
    ∀ l : List α, ((l.flatMap F).filter isEndText).map contentOf = l.map s
  | [] => by simp
  | a :: rest => by
    simp only [List.flatMap_cons, List.filter_append, List.map_append, List.map_cons,
      hF a, filter_endText_flatMap_content F s hF rest]
    rfl

/-- The value-axis labels of generate_scale_range: the end-anchored texts
carry exactly the integer strings of the ticks, in loop order. -/
lemma generateScaleRange_labels {g : SvgGenerator} {mn mx : ℤ} {st : ℕ}
    {off : ℤ} {sh : Bool} {out : List Node}
    (hout : generateScaleRange g mn mx st off sh = some out) :
    (out.filter isEndText).map contentOf = (stepRange mn mx st).map (fun n => toString n) := by
  rcases hpw : g.plotWindow with ⟨xL, xO, yL, yO⟩
  rw [generateScaleRange, hpw] at hout
  dsimp only at hout
  split at hout
  · simp only [Option.some.injEq] at hout
    subst hout
    apply filter_endText_flatMap_content
    intro n
    dsimp only
    by_cases h2 : sh = true <;> by_cases h3 : off ≠ 0 <;>
      simp [h2, h3, isEndText, contentOf]
  · exact Option.noConfusion hout

lemma bgStage_no_endText (bp : BarPlot) : (bgStage bp).filter isEndText = [] := by
  rw [bgStage]
  cases bp.backgroundColor <;> simp [isEndText]

lemma binMarkerLoop_no_endText (g : SvgGenerator) (markers : List String)
    (off : ℤ) (nth : ℕ) (su shift y y2 y3 : ℚ) (sv : Bool) :
    ∀ (idxs : List ℕ) (mi : ℕ),
      (binMarkerLoop g markers off nth su shift y y2 y3 sv mi idxs).filter isEndText = []
  | [], mi => by simp [binMarkerLoop]
  | i :: rest, mi => by
    have ih1 := binMarkerLoop_no_endText g markers off nth su shift y y2 y3 sv rest (mi + 1)
    have ih2 := binMarkerLoop_no_endText g markers off nth su shift y y2 y3 sv rest mi
    rcases hpw : g.plotWindow with ⟨xL, xO, yL, yO⟩
    rw [binMarkerLoop]
    simp only [hpw]
    by_cases hsel : i % nth = 0 ∧ mi < markers.length
    · rw [if_pos hsel]
      cases sv <;> by_cases h2 : off ≠ 0 <;> simp [h2, isEndText, ih1]
    · rw [if_neg hsel]
      cases sv <;> by_cases h2 : off ≠ 0 <;> simp [h2, isEndText, ih2]

lemma generateBinMarkers_no_endText {g : SvgGenerator} {markers : List String}
    {off : ℤ} {pos : BinMarkerPosition} {sv : Bool} {out : List Node}
    (hout : generateBinMarkers g markers off pos sv = some out) :
    out.filter isEndText = [] := by
  rcases hpw : g.plotWindow with ⟨xL, xO, yL, yO⟩
  rw [generateBinMarkers] at hout
  cases hv : g.values with
  | nil => rw [hv] at hout; exact Option.noConfusion hout
  | cons v0 rest =>
    rw [hv, hpw] at hout
    dsimp only at hout
    split at hout
    · exact Option.noConfusion hout
    · split at hout
      · exact Option.noConfusion hout
      · simp only [Option.some.injEq] at hout
        subst hout
        exact binMarkerLoop_no_endText g markers off _ _ _ _ _ _ sv _ 0

lemma markerStage_no_endText {bp : BarPlot} {g : SvgGenerator} {out : List Node}
    (hout : markerStage bp g = some out) : out.filter isEndText = [] := by
  rw [markerStage] at hout
  cases hm : bp.binMarkers with
  | none =>
    rw [hm] at hout
    simp only [Option.some.injEq] at hout
    subst hout
    rfl
  | some ms =>
    rw [hm] at hout
    dsimp only at hout
    split at hout
    · exact Option.noConfusion hout
    · exact generateBinMarkers_no_endText hout

lemma generateText_no_endText {g : SvgGenerator} {t : String} {side : Side}
    {off : ℤ} {out : List Node}
    (hout : generateText g t side off = some out) : out.filter isEndText = [] := by
  rcases hpw : g.plotWindow with ⟨xL, xO, yL, yO⟩
  rw [generateText, hpw] at hout
  cases side <;> dsimp only at hout <;> split at hout <;>
    first
      | exact Option.noConfusion hout
      | (simp only [Option.some.injEq] at hout
         subst hout
         simp [isEndText])

lemma textStage_no_endText {bp : BarPlot} {g : SvgGenerator} {side : Side}
    {out : List Node}
    (hout : textStage bp g side = some out) : out.filter isEndText = [] := by
  cases side with
  | Left =>
    rw [textStage] at hout
    cases hm : bp.plotText.left with
    | none =>
      rw [hm] at hout
      simp only [Option.some.injEq] at hout
      simp [← hout]
    | some t =>
      rw [hm] at hout
      exact generateText_no_endText hout
  | Right =>
    rw [textStage] at hout
    cases hm : bp.plotText.right with
    | none =>
      rw [hm] at hout
      simp only [Option.some.injEq] at hout
      simp [← hout]
    | some t =>
      rw [hm] at hout
      exact generateText_no_endText hout
  | Top =>
    rw [textStage] at hout
    cases hm : bp.plotText.top with
    | none =>
      rw [hm] at hout
      simp only [Option.some.injEq] at hout
      simp [← hout]
    | some t =>
      rw [hm] at hout
      exact generateText_no_endText hout
  | Bottom =>
    rw [textStage] at hout
    cases hm : bp.plotText.bottom with
    | none =>
      rw [hm] at hout
      simp only [Option.some.injEq] at hout
      simp [← hout]
    | some t =>
      rw [hm] at hout
      exact generateText_no_endText hout

lemma windowBorderStage_no_endText (bp : BarPlot) (g : SvgGenerator) :
    (windowBorderStage bp g).filter isEndText = [] := by
  rw [windowBorderStage]
  split
  · simp [generateSvgBorder, SvgGenerator.getSvgWindow, isEndText]
  · rfl

lemma plotBorderStage_no_endText (bp : BarPlot) (g : SvgGenerator) :
    (plotBorderStage bp g).filter isEndText = [] := by
  rw [plotBorderStage]
  split
  · rcases hpw : g.plotWindow with ⟨xL, xO, yL, yO⟩
    simp [generatePlotBorder, SvgGenerator.getPlotWindow, hpw, isEndText]
  · rfl

lemma rowBars_no_endText (g : SvgGenerator) (d : Bool) (ci : ℕ) :
    ∀ (bi : ℕ) (row : List ℚ), (rowBars g d ci bi row).filter isEndText = []
  | _, [] => rfl
  | bi, a :: t => by
    simp [rowBars, barRect, isEndText, rowBars_no_endText g d ci (bi + 1) t]

lemma catBars_no_endText (g : SvgGenerator) (d : Bool) :
    ∀ (ci : ℕ) (rows : List (List ℚ)), (catBars g d ci rows).filter isEndText = []
  | _, [] => rfl
  | ci, r :: rest => by
    simp [catBars, List.filter_append, rowBars_no_endText g d ci 0 r,
      catBars_no_endText g d (ci + 1) rest]

lemma legendLoop_no_endText (g : SvgGenerator) (fs x : ℚ) :
    ∀ (y : ℚ) (pairs : List (String × String)),
      (legendLoop g fs x y pairs).filter isEndText = []
  | _, [] => rfl
  | y, (t, c) :: rest => by
    simp [legendLoop, isEndText, legendLoop_no_endText g fs x (y + fs * (6/5)) rest]

lemma generateBars_no_endText (g : SvgGenerator) (d : Bool) :
    (generateBars g d).filter isEndText = [] :=
  catBars_no_endText g d 0 g.values

lemma legendStage_no_endText (bp : BarPlot) (g : SvgGenerator) :
    (legendStage bp g).filter isEndText = [] := by
  rw [legendStage]
  cases bp.legend.categories with
  | none => rfl
  | some cats => simp [generateLegend, legendLoop_no_endText]

/-- C6: when an explicit scale (mn, mx, st) with mn at most mx is set and
render succeeds, the end-anchored label texts of the output carry exactly
the integer strings of mn, mn+st, ..., mx in low-to-high order, and there
are exactly (mx - mn) / st + 1 of them. -/
theorem C6_scale_label_count (bp : BarPlot) (mn mx : ℤ) (st : ℕ) (out : List Node)
    (hsr : bp.scaleRange = some (mn, mx, st))
    (hmn : mn ≤ mx) (hst : 1 ≤ st)
    (hout : render bp = some out) :
    (out.filter isEndText).map contentOf = (stepRange mn mx st).map (fun n => toString n) ∧
    (out.filter isEndText).length = (mx - mn).toNat / st + 1 ∧
    List.Pairwise (· < ·) (stepRange mn mx st) := by
  rw [render_eq_some_iff] at hout
  obtain ⟨g1, mN, sN, lN, rN, tN, bN, hg1, hm, hs, hl, hr, ht, hb, hout⟩ := hout
  rw [scaleStage, hsr] at hs
  have hlabels := generateScaleRange_labels hs
  have hmain : (out.filter isEndText).map contentOf
      = (stepRange mn mx st).map (fun n => toString n) := by
    subst hout
    simp only [List.filter_append, List.map_append,
      bgStage_no_endText, markerStage_no_endText hm,
      textStage_no_endText hl, textStage_no_endText hr,
      textStage_no_endText ht, textStage_no_endText hb,
      windowBorderStage_no_endText, plotBorderStage_no_endText,
      legendStage_no_endText, generateBars_no_endText,
      List.append_nil, List.nil_append]
    simpa using hlabels
  refine ⟨hmain, ?_, ?_⟩
  · have hlen : (out.filter isEndText).length = (stepRange mn mx st).length := by
      have := congrArg List.length hmain
      simpa using this
    rw [hlen, stepRange, List.length_map, List.length_range, if_pos hmn]
  · rw [stepRange]
    refine List.Pairwise.map _ ?_ (List.pairwise_lt_range _)
    intro a b hab
    have hmul : a * st < b * st := (Nat.mul_lt_mul_right (by omega)).mpr hab
    omega

/-- Concrete plot for the C6 witness: scale (0, 4, 2) on a shrunk window. -/
def c6Bp : BarPlot :=
  { values := [[1]], scaleRange := some (0, 4, 2),
    plotWindowScale := some (50, 50, 50, 50), size := some (100, 100) }

/-- The rendered output of the C6 witness plot. -/
def c6Out : List Node := (render c6Bp).getD []

set_option maxRecDepth 16000 in
/-- Witness for C6: scale (0, 4, 2) yields exactly the three labels 0, 2, 4
in that order. -/
theorem C6_witness :
    (c6Out.filter isEndText).map contentOf = ["0", "2", "4"] ∧
    (c6Out.filter isEndText).length = 3 := by
  have h := C6_scale_label_count c6Bp 0 4 2 c6Out rfl (by decide) (by decide) (by decide)
  refine ⟨?_, ?_⟩
  · rw [h.1]
    decide
  · rw [h.2.1]
    decide

/-! ## Claim C9: canvas containment -/

/-- Bounds check for one rect node: all four extents stay inside the canvas
box enlarged by the font size slack. -/
def rectInBounds (fs W H : ℚ) : Node → Bool
  | Node.rect x y w h _ _ =>
    decide (-fs ≤ x) && decide (x + w ≤ W + fs)
      && decide (-fs ≤ y) && decide (y + h ≤ H + fs)
  | _ => false

/-- Concrete plot for the C9 counterexample: the value 1000 dwarfs the
explicit scale (0, 10, 5), so its bar leaves the canvas. -/
def c9Bp : BarPlot :=
  { values := [[1000]], scaleRange := some (0, 10, 5),
    plotWindowScale := some (50, 0, 50, 0), size := some (100, 100) }

set_option maxRecDepth 16000 in
/-- C9 counterexample: render succeeds on c9Bp, but the emitted bar rect
has y = -4950, far below -fs = -2, refuting unconditional canvas
containment (the claim explicitly allows values outside the scale range). -/
theorem C9_counterexample :
    (render c9Bp).isSome = true ∧
    Node.rect (5/2) (-4950) 45 5000 1 DEFAULT_BAR_COLOR ∈ (render c9Bp).getD [] ∧
    ((-4950 : ℚ) < -((SvgGenerator.new c9Bp).getFontSize)) ∧
    rectInBounds ((SvgGenerator.new c9Bp).getFontSize)
      ((SvgGenerator.new c9Bp).getSvgWidth) ((SvgGenerator.new c9Bp).getSvgHeight)
      (Node.rect (5/2) (-4950) 45 5000 1 DEFAULT_BAR_COLOR) = false := by
  refine ⟨by decide, by decide, by decide, by decide⟩

lemma fsqrt_nonneg (n : ℕ) : 0 ≤ fsqrt n := by
  rw [fsqrt]
  split <;> positivity

/-- Amended C9: every bar rectangle stays inside the canvas box (with the
font size slack of the claim) provided the plot window sits inside the
canvas, the gap percentages are in [0, 100], the font size percentage is
non-negative, the series share one length, every value lies within the
value range used for scaling, and, when the negative-down branch is
active, that range contains zero.  The unconditional claim is false (see
the counterexample). -/
theorem C9_bar_containment (g : SvgGenerator) (d : Bool)
    (xL xO yL yO : ℚ)
    (hpw : g.plotWindow = (xL, xO, yL, yO))
    (hxO : 0 ≤ xO) (hyO : 0 ≤ yO) (hxL : 0 ≤ xL) (hyL : 0 ≤ yL)
    (hxW : xO + xL ≤ g.getSvgWidth) (hyH : yO + yL ≤ g.getSvgHeight)
    (hbin0 : 0 ≤ g.binMargin) (hbin1 : g.binMargin ≤ 100)
    (hbar0 : 0 ≤ g.barMargin) (hbar1 : g.barMargin ≤ 100)
    (hfsp : 0 ≤ g.fontSize)
    (hrows : ∀ row ∈ g.values, row.length = (g.values.headD []).length)
    (hrange : barsYMin g < barsYMax g)
    (hvals : ∀ row ∈ g.values, ∀ v ∈ row, barsYMin g ≤ v ∧ v ≤ barsYMax g)
    (hgmin : g.min = (statsPass g.values).min)
    (hymax : d = true ∧ g.min < 0 → 0 ≤ barsYMax g) :
    ∀ node ∈ generateBars g d,
      rectInBounds g.getFontSize g.getSvgWidth g.getSvgHeight node = true := by
  intro node hnode
  obtain ⟨c, row, hc, hrowmem⟩ := mem_catBars hnode
  obtain ⟨b, v, hb, rfl⟩ := mem_rowBars hrowmem
  have hcK : c < g.values.length := getElem?_lt_length hc
  have hrowm : row ∈ g.values := getElem?_mem hc
  have hvm : v ∈ row := getElem?_mem hb
  have hbN : b < (g.values.headD []).length := hrows row hrowm ▸ getElem?_lt_length hb
  have hvlo : barsYMin g ≤ v := (hvals row hrowm v hvm).1
  have hvhi : v ≤ barsYMax g := (hvals row hrowm v hvm).2
  have hfs0 : 0 ≤ g.getFontSize := by
    rw [SvgGenerator.getFontSize]
    have h1 := fsqrt_nonneg (g.svgWindow.1 * g.svgWindow.2)
    have h2 : (0 : ℚ) ≤ (g.fontSize : ℚ) := by exact_mod_cast hfsp
    exact mul_nonneg (div_nonneg h1 (by norm_num)) (div_nonneg h2 (by norm_num))
  -- horizontal quantities
  have hbinQ : (0 : ℚ) ≤ (g.binMargin : ℚ) / 100 ∧ (g.binMargin : ℚ) / 100 ≤ 1 := by
    constructor
    · apply div_nonneg _ (by norm_num)
      exact_mod_cast hbin0
    · rw [div_le_one (by norm_num)]
      exact_mod_cast hbin1
  have hbarQ : (0 : ℚ) ≤ (g.barMargin : ℚ) / 100 ∧ (g.barMargin : ℚ) / 100 ≤ 1 := by
    constructor
    · apply div_nonneg _ (by norm_num)
      exact_mod_cast hbar0
    · rw [div_le_one (by norm_num)]
      exact_mod_cast hbar1
  have hNQ : (0 : ℚ) < ((g.values.headD []).length : ℚ) := by
    have : 0 < (g.values.headD []).length := by omega
    exact_mod_cast this
  have hKQ : (0 : ℚ) < (g.values.length : ℚ) := by
    have : 0 < g.values.length := by omega
    exact_mod_cast this
  have hbw_eq : barsBinWidth g = xL / ((g.values.headD []).length : ℚ) := by
    rw [barsBinWidth, hpw]
  have hbw0 : 0 ≤ barsBinWidth g := by
    rw [hbw_eq]
    exact div_nonneg hxL hNQ.le
  have hbwN : barsBinWidth g * ((g.values.headD []).length : ℚ) = xL := by
    rw [hbw_eq]
    exact div_mul_cancel₀ xL hNQ.ne'
  have hbm_eq : barsBinMargin g = barsBinWidth g * ((g.binMargin : ℚ) / 100) := rfl
  have hbm0 : 0 ≤ barsBinMargin g := by
    rw [hbm_eq]
    exact mul_nonneg hbw0 hbinQ.1
  have hbmle : barsBinMargin g ≤ barsBinWidth g := by
    rw [hbm_eq]
    exact mul_le_of_le_one_right hbw0 hbinQ.2
  have hbarw0 : 0 ≤ barsBarWidth g := by
    rw [barsBarWidth]
    exact div_nonneg (by linarith) hKQ.le
  have hbarwK : barsBarWidth g * (g.values.length : ℚ) = barsBinWidth g - barsBinMargin g := by
    rw [barsBarWidth]
    exact div_mul_cancel₀ _ hKQ.ne'
  have hbarm_eq : barsBarMargin g = barsBarWidth g * ((g.barMargin : ℚ) / 100) := rfl
  have hbarm0 : 0 ≤ barsBarMargin g := by
    rw [hbarm_eq]
    exact mul_nonneg hbarw0 hbarQ.1
  have hbarmle : barsBarMargin g ≤ barsBarWidth g := by
    rw [hbarm_eq]
    exact mul_le_of_le_one_right hbarw0 hbarQ.2
  have hcount1 : barsBarWidth g * (c : ℚ) + barsBarWidth g
      ≤ barsBinWidth g - barsBinMargin g := by
    have hle : ((c : ℚ) + 1) ≤ (g.values.length : ℚ) := by exact_mod_cast hcK
    calc barsBarWidth g * (c : ℚ) + barsBarWidth g
        = barsBarWidth g * ((c : ℚ) + 1) := by ring
      _ ≤ barsBarWidth g * (g.values.length : ℚ) :=
          mul_le_mul_of_nonneg_left hle hbarw0
      _ = barsBinWidth g - barsBinMargin g := hbarwK
  have hcount2 : barsBinWidth g * (b : ℚ) + barsBinWidth g ≤ xL := by
    have hle : ((b : ℚ) + 1) ≤ ((g.values.headD []).length : ℚ) := by exact_mod_cast hbN
    calc barsBinWidth g * (b : ℚ) + barsBinWidth g
        = barsBinWidth g * ((b : ℚ) + 1) := by ring
      _ ≤ barsBinWidth g * ((g.values.headD []).length : ℚ) :=
          mul_le_mul_of_nonneg_left hle hbw0
      _ = xL := hbwN
  have hmulc : 0 ≤ barsBarWidth g * (c : ℚ) :=
    mul_nonneg hbarw0 (by positivity)
  have hmulb : 0 ≤ barsBinWidth g * (b : ℚ) :=
    mul_nonneg hbw0 (by positivity)
  -- vertical quantities
  have hrangepos : 0 < barsRange g := by
    rw [barsRange]
    linarith
  have hsu_eq : barsScaleUnit g = yL / barsRange g := by rw [barsScaleUnit, hpw]
  have hsu0 : 0 ≤ barsScaleUnit g := by
    rw [hsu_eq]
    exact div_nonneg hyL hrangepos.le
  have hrsu : barsRange g * barsScaleUnit g = yL := by
    rw [hsu_eq, mul_comm]
    exact div_mul_cancel₀ yL hrangepos.ne'
  have htop_eq : barsTopOffset g = barsYMin g * barsScaleUnit g := by
    rw [barsTopOffset, hsu_eq, hpw, mul_div_assoc]
  have hyfl : barsYFloor g = yL + yO := by rw [barsYFloor, hpw]
  have hA : ∀ u : ℚ, u ≤ barsYMax g → (u - barsYMin g) * barsScaleUnit g ≤ yL := by
    intro u h2
    calc (u - barsYMin g) * barsScaleUnit g
        ≤ barsRange g * barsScaleUnit g := by
          apply mul_le_mul_of_nonneg_right _ hsu0
          rw [barsRange]
          linarith
      _ = yL := hrsu
  have hA0 : ∀ u : ℚ, barsYMin g ≤ u → 0 ≤ (u - barsYMin g) * barsScaleUnit g :=
    fun u h1 => mul_nonneg (by linarith) hsu0
  -- unfold the bar rect and discharge the bounds per branch
  simp only [Nat.zero_add]
  rw [barRect, hpw]
  dsimp only
  rw [rectInBounds]
  simp only [Bool.and_eq_true, decide_eq_true_eq]
  have hAv := hA v hvhi
  have hA0v := hA0 v hvlo
  split_ifs with hguard hv
  · -- negative-down branch, bar at least 0
    have hymin0 : barsYMin g < 0 := by
      rcases statsPass_min_lt (hgmin ▸ hguard.2) with hF | ⟨row2, hrow2, v2, hv2, hvneg⟩
      · have : (0 : ℚ) ≤ F64_MAX := by
          rw [F64_MAX]
          positivity
        linarith
      · have := (hvals row2 hrow2 v2 hv2).1
        linarith
    have htopneg : barsYMin g * barsScaleUnit g ≤ 0 :=
      mul_nonpos_of_nonpos_of_nonneg hymin0.le hsu0
    have hsub : (v - barsYMin g) * barsScaleUnit g
        = v * barsScaleUnit g - barsYMin g * barsScaleUnit g := by ring
    refine ⟨⟨⟨by linarith, by linarith⟩, ?_⟩, ?_⟩
    · dsimp only
      rw [hyfl, htop_eq]
      linarith
    · dsimp only
      rw [hyfl, htop_eq]
      linarith
  · -- negative-down branch, bar below 0
    have hymin0 : barsYMin g < 0 := by
      rcases statsPass_min_lt (hgmin ▸ hguard.2) with hF | ⟨row2, hrow2, v2, hv2, hvneg⟩
      · have : (0 : ℚ) ≤ F64_MAX := by
          rw [F64_MAX]
          positivity
        linarith
      · have := (hvals row2 hrow2 v2 hv2).1
        linarith
    have hymaxv := hymax hguard
    have hvsu : v * barsScaleUnit g ≤ 0 :=
      mul_nonpos_of_nonpos_of_nonneg (by linarith [lt_of_not_ge hv]) hsu0
    have habs : |v * barsScaleUnit g| = -(v * barsScaleUnit g) := abs_of_nonpos hvsu
    have hB : (0 - barsYMin g) * barsScaleUnit g ≤ yL := hA 0 hymaxv
    have hsub : (v - barsYMin g) * barsScaleUnit g
        = v * barsScaleUnit g - barsYMin g * barsScaleUnit g := by ring
    have hsub0 : (0 - barsYMin g) * barsScaleUnit g
        = -(barsYMin g * barsScaleUnit g) := by ring
    refine ⟨⟨⟨by linarith, by linarith⟩, ?_⟩, ?_⟩
    · dsimp only
      rw [hyfl, htop_eq]
      linarith
    · dsimp only
      rw [hyfl, htop_eq, habs]
      linarith
  · -- standard branch
    have hsub : (v - barsYMin g) * barsScaleUnit g
        = v * barsScaleUnit g - barsYMin g * barsScaleUnit g := by ring
    refine ⟨⟨⟨by linarith, by linarith⟩, ?_⟩, ?_⟩
    · dsimp only
      rw [hyfl, htop_eq]
      linarith
    · dsimp only
      rw [hyfl, htop_eq]
      linarith

/-- The generator of the C9 witness plot, as generate_bars sees it. -/
def c9wGen : SvgGenerator :=
  withScale c9Bp ((genWithWindow { c9Bp with values := [[5]] }).getD
    (SvgGenerator.new { c9Bp with values := [[5]] }))

set_option maxRecDepth 16000 in
/-- Witness for the amended C9: with the value 5 inside the scale (0, 10),
the single bar rect (x 5/2, y 25, width 45, height 25) stays inside the
canvas box. -/
theorem C9_witness :
    rectInBounds c9wGen.getFontSize c9wGen.getSvgWidth c9wGen.getSvgHeight
      (Node.rect (5/2) 25 45 25 1 DEFAULT_BAR_COLOR) = true := by
  apply C9_bar_containment c9wGen false 50 0 50 0 (by decide) (by decide) (by decide)
    (by decide) (by decide) (by decide) (by decide) (by decide) (by decide)
    (by decide) (by decide) (by decide) (by decide) (by decide) (by decide)
    (by decide) (by intro h; exact absurd h.1 (by decide))
  decide

end

end EbBars
